import Mathlib

/-!
# DAkOmegaSSTFIML: blending operator, effective diffusivities, buffers

Shallow embedding of `src/adjoint/DAModel/DATurbulenceModel/DAkOmegaSSTFIML.H`.

* `scalar` is a parameter: the field operators and the functions built from them are
  defined over any type with `+`, `-` and `*`.  Two scalar types are used: a linearly
  ordered field (exact arithmetic, `ℚ` to evaluate) and `Double`, the IEEE 754 binary64
  numbers with every operation rounded to nearest, ties to even.
* A `dimensionedScalar` is represented by its value.
* A `volScalarField` is the list of its cell values together with the face
  values of every boundary patch; `volScalarField::Internal` holds the cell
  values only.  Field arithmetic acts entry by entry, as the OpenFOAM field
  operators do.
* `label` is a signed machine integer of `w` bits; `w` is a parameter.
-/

namespace Foam

/-- A named constant with dimensions; only the value takes part in the arithmetic. -/
structure dimensionedScalar (α : Type) where
  value : α

/-- Cell-centred scalar field with boundary patches (`volScalarField`). -/
structure volScalarField (α : Type) where
  internal : List α
  boundaryField : List (List α)

/-- Cell-centred scalar field without boundary (`volScalarField::Internal`). -/
structure Internal (α : Type) where
  field : List α

section FieldOps

variable {α : Type}

/-- `dimensionedScalar - dimensionedScalar`. -/
instance instSubDimensionedScalar [Sub α] : Sub (dimensionedScalar α) where
  sub a b := ⟨a.value - b.value⟩

/-- `volScalarField * dimensionedScalar`: every cell and boundary face is scaled. -/
instance instHMulVolDS [Mul α] :
    HMul (volScalarField α) (dimensionedScalar α) (volScalarField α) where
  hMul F s := ⟨F.internal.map (fun f => f * s.value),
    F.boundaryField.map (fun p => p.map (fun f => f * s.value))⟩

/-- `volScalarField + dimensionedScalar`: the constant is added in every cell and face. -/
instance instHAddVolDS [Add α] :
    HAdd (volScalarField α) (dimensionedScalar α) (volScalarField α) where
  hAdd F s := ⟨F.internal.map (fun f => f + s.value),
    F.boundaryField.map (fun p => p.map (fun f => f + s.value))⟩

/-- `volScalarField * volScalarField`, entry by entry. -/
instance instMulVol [Mul α] : Mul (volScalarField α) where
  mul F G := ⟨List.zipWith (fun f g => f * g) F.internal G.internal,
    List.zipWith (fun p q => List.zipWith (fun f g => f * g) p q) F.boundaryField G.boundaryField⟩

/-- `volScalarField + volScalarField`, entry by entry. -/
instance instAddVol [Add α] : Add (volScalarField α) where
  add F G := ⟨List.zipWith (fun f g => f + g) F.internal G.internal,
    List.zipWith (fun p q => List.zipWith (fun f g => f + g) p q) F.boundaryField G.boundaryField⟩

/-- `volScalarField::Internal * dimensionedScalar`. -/
instance instHMulIntDS [Mul α] : HMul (Internal α) (dimensionedScalar α) (Internal α) where
  hMul F s := ⟨F.field.map (fun f => f * s.value)⟩

/-- `volScalarField::Internal + dimensionedScalar`. -/
instance instHAddIntDS [Add α] : HAdd (Internal α) (dimensionedScalar α) (Internal α) where
  hAdd F s := ⟨F.field.map (fun f => f + s.value)⟩

end FieldOps

/-- The part of `fvMesh` the model reads: the cell count `nCells()` and, for the
near-wall cache, the cells adjacent to the wall boundary in patch and face order. -/
structure fvMesh where
  nCells : Nat
  nearWallCells : List Nat

/-- The members of `DAkOmegaSSTFIML` that the embedded functions read or write:
the SST parameters, the near-wall cache, `omega_`, and from the base class
`mesh_`, `nut_` and the viscosity returned by `nu()`. -/
structure DAkOmegaSSTFIML (α : Type) where
  alphaK1_ : dimensionedScalar α
  alphaK2_ : dimensionedScalar α
  alphaOmega1_ : dimensionedScalar α
  alphaOmega2_ : dimensionedScalar α
  gamma1_ : dimensionedScalar α
  gamma2_ : dimensionedScalar α
  beta1_ : dimensionedScalar α
  beta2_ : dimensionedScalar α
  betaStar_ : dimensionedScalar α
  a1_ : dimensionedScalar α
  b1_ : dimensionedScalar α
  c1_ : dimensionedScalar α
  F3_ : Bool
  mesh_ : fvMesh
  nut_ : volScalarField α
  nu : volScalarField α
  omega_ : volScalarField α
  omegaNearWall_ : List α

namespace DAkOmegaSSTFIML

section Arithmetic

variable {α : Type} [Add α] [Sub α] [Mul α]

/-- `blend(const volScalarField& F1, psi1, psi2)`: `return F1 * (psi1 - psi2) + psi2;`. -/
def blend (F1 : volScalarField α) (psi1 psi2 : dimensionedScalar α) : volScalarField α :=
  F1 * (psi1 - psi2) + psi2

/-- `blend(const volScalarField::Internal& F1, psi1, psi2)`: `return F1 * (psi1 - psi2) + psi2;`. -/
def blendInternal (F1 : Internal α) (psi1 psi2 : dimensionedScalar α) : Internal α :=
  F1 * (psi1 - psi2) + psi2

/-- `alphaK(F1)`: `return blend(F1, alphaK1_, alphaK2_);`. -/
def alphaK (m : DAkOmegaSSTFIML α) (F1 : volScalarField α) : volScalarField α :=
  blend F1 m.alphaK1_ m.alphaK2_

/-- `alphaOmega(F1)`: `return blend(F1, alphaOmega1_, alphaOmega2_);`. -/
def alphaOmega (m : DAkOmegaSSTFIML α) (F1 : volScalarField α) : volScalarField α :=
  blend F1 m.alphaOmega1_ m.alphaOmega2_

/-- `beta(F1)`: `return blend(F1, beta1_, beta2_);` on the internal field. -/
def beta (m : DAkOmegaSSTFIML α) (F1 : Internal α) : Internal α :=
  blendInternal F1 m.beta1_ m.beta2_

/-- `gamma(F1)`: `return blend(F1, gamma1_, gamma2_);` on the internal field. -/
def gamma (m : DAkOmegaSSTFIML α) (F1 : Internal α) : Internal α :=
  blendInternal F1 m.gamma1_ m.gamma2_

/-- `DkEff(F1)`: the field `alphaK(F1) * nut_ + this->nu()`. -/
def DkEff (m : DAkOmegaSSTFIML α) (F1 : volScalarField α) : volScalarField α :=
  m.alphaK F1 * m.nut_ + m.nu

/-- `DomegaEff(F1)`: the field `alphaOmega(F1) * nut_ + this->nu()`. -/
def DomegaEff (m : DAkOmegaSSTFIML α) (F1 : volScalarField α) : volScalarField α :=
  m.alphaOmega F1 * m.nut_ + m.nu

end Arithmetic

section Ordered

variable {α : Type} [LinearOrderedField α]

/-- Modelled from the spec: the body of `GbyNu` is in the model's `.C` file, which is
not among the sources; the header only declares `GbyNu(GbyNu0, F2, S2)`.  Spec 4.2:
"A normalized production term (`G/ν`) capped at 10×betaStar·S²".  The declared
argument `F2` does not occur in the cap the spec describes. -/
def GbyNu (m : DAkOmegaSSTFIML α) (GbyNu0 _F2 S2 : Internal α) : Internal α :=
  ⟨List.zipWith (fun g s2 => min g (10 * m.betaStar_.value * s2)) GbyNu0.field S2.field⟩

/-- Modelled from the spec: the body of `saveOmegaNearWall` is in the model's `.C` file,
which is not among the sources.  Spec 3 and 4.4: the cache is an "ordered list of
scalars, one per boundary-adjacent cell" and saving captures the current
"boundary-adjacent ω values".  A cell index outside the field reads as `0`. -/
def saveOmegaNearWall (m : DAkOmegaSSTFIML α) : DAkOmegaSSTFIML α :=
  { m with omegaNearWall_ := m.mesh_.nearWallCells.map (fun c => m.omega_.internal.getD c 0) }

/-- Modelled from the spec: the write-back loop of `setOmegaNearWall`, whose body is not
among the sources.  The cached values go back one boundary-adjacent cell after the
other, the cache being read in the order in which it was filled. -/
def restoreNearWall : List Nat → List α → List α → List α
  | c :: cs, v :: vs, om => restoreNearWall cs vs (om.set c v)
  | _, _, om => om

/-- Modelled from the spec: the body of `setOmegaNearWall` is in the model's `.C` file,
which is not among the sources.  Spec 4.4: it is called "to force those specific
cells back to their saved values". -/
def setOmegaNearWall (m : DAkOmegaSSTFIML α) : DAkOmegaSSTFIML α :=
  { m with omega_ :=
      { m.omega_ with
        internal := restoreNearWall m.mesh_.nearWallCells m.omegaNearWall_ m.omega_.internal } }

end Ordered

end DAkOmegaSSTFIML

/-! ## Buffer extents

`label` is a two's-complement integer of `w` bits.  A heap array is represented
by its extent; its elements are uninitialised after `new`. -/

/-- Value of an integer expression after it is stored in a signed `w`-bit `label`. -/
def labelWrap (w : Nat) (z : Int) : Int :=
  (z + 2 ^ (w - 1)) % 2 ^ w - 2 ^ (w - 1)

/-- `a * b` evaluated in `label` arithmetic. -/
def labelMul (w : Nat) (a b : Int) : Int :=
  labelWrap w (a * b)

/-- `new T[len]`: the extent of the allocated array; a negative extent is rejected. -/
def newArray (len : Int) : Option Nat :=
  if 0 ≤ len then some len.toNat else none

/-- `scalar* inputs_ = new scalar[mesh_.nCells() * 9];`. -/
def inputs_ (w : Nat) (mesh_ : fvMesh) : Option Nat :=
  newArray (labelMul w mesh_.nCells 9)

/-- `scalar* outputs_ = new scalar[mesh_.nCells()];`. -/
def outputs_ (w : Nat) (mesh_ : fvMesh) : Option Nat :=
  newArray (labelWrap w mesh_.nCells)

/-- `double* inputsDouble_ = new double[mesh_.nCells() * 9];` (forward-mode build). -/
def inputsDouble_ (w : Nat) (mesh_ : fvMesh) : Option Nat :=
  newArray (labelMul w mesh_.nCells 9)

/-- `double* outputsDouble_ = new double[mesh_.nCells()];` (forward-mode build). -/
def outputsDouble_ (w : Nat) (mesh_ : fvMesh) : Option Nat :=
  newArray (labelWrap w mesh_.nCells)

/-! ## Double-precision arithmetic

In a double-precision build a `scalar` is an IEEE 754 binary64 number and every `+`, `-`
and `*` rounds its exact result to the nearest such number, ties going to the even
significand.  A finite value is represented by the rational it denotes (the two zeros
are not told apart); the infinities and NaN are collapsed into one non-finite value,
which every operation propagates. -/

/-- Exponent of the binade of `q`: the largest `e` with `2 ^ e ≤ |q|` (`0` for `q = 0`). -/
def binade (q : ℚ) : ℤ :=
  Int.log 2 |q|

/-- Spacing of the binary64 numbers around `q`: 53 significant bits, and never finer than
`2 ^ (-1074)`, the spacing of the subnormal numbers. -/
def ulp (q : ℚ) : ℚ :=
  (2 : ℚ) ^ (max (binade q) (-1022) - 52)

/-- Nearest integer, a tie going to the even neighbour. -/
def roundHalfEven (x : ℚ) : ℤ :=
  if x - ⌊x⌋ < 1 / 2 then ⌊x⌋
  else if 1 / 2 < x - ⌊x⌋ then ⌊x⌋ + 1
  else if ⌊x⌋ % 2 = 0 then ⌊x⌋ else ⌊x⌋ + 1

/-- Round to nearest, ties to even, with the exponent unbounded above. -/
def roundNearest (q : ℚ) : ℚ :=
  roundHalfEven (q / ulp q) * ulp q

/-- The largest finite binary64 number, `(2 ^ 53 - 1) * 2 ^ 971`. -/
def maxFinite : ℚ :=
  (2 ^ 53 - 1) * 2 ^ 971

/-- A `double`: a finite value, or a non-finite one (an infinity or NaN). -/
inductive Double where
  | finite (q : ℚ)
  | nonFinite
  deriving DecidableEq

namespace Double

/-- The `double` an exact result is delivered as: the nearest binary64 number, or a
non-finite value when that rounding exceeds `maxFinite` (overflow). -/
def round (q : ℚ) : Double :=
  if |roundNearest q| ≤ maxFinite then finite (roundNearest q) else nonFinite

/-- `double + double`. -/
instance instAdd : Add Double where
  add x y :=
    match x, y with
    | finite a, finite b => round (a + b)
    | _, _ => nonFinite

/-- `double - double`. -/
instance instSub : Sub Double where
  sub x y :=
    match x, y with
    | finite a, finite b => round (a - b)
    | _, _ => nonFinite

/-- `double * double`. -/
instance instMul : Mul Double where
  mul x y :=
    match x, y with
    | finite a, finite b => round (a * b)
    | _, _ => nonFinite

/-- The rational `q` is itself a finite binary64 number: rounding leaves it alone. -/
def IsValue (q : ℚ) : Prop :=
  round q = finite q

instance instDecidableIsValue (q : ℚ) : Decidable (IsValue q) :=
  inferInstanceAs (Decidable (round q = finite q))

/-- The `double` is finite. -/
def IsFinite : Double → Prop
  | finite _ => True
  | nonFinite => False

instance instDecidableIsFinite (x : Double) : Decidable (IsFinite x) :=
  match x with
  | finite _ => isTrue trivial
  | nonFinite => isFalse id

/-- The `double` is finite and holds a binary64 number. -/
def Valid : Double → Prop
  | finite q => IsValue q
  | nonFinite => False

instance instDecidableValid (x : Double) : Decidable (Valid x) :=
  match x with
  | finite q => instDecidableIsValue q
  | nonFinite => isFalse id

/-- The exact difference of the two finite values is a binary64 number, so that the
subtraction `x - y` does not round. -/
def ExactDiff : Double → Double → Prop
  | finite a, finite b => IsValue (a - b)
  | _, _ => False

instance instDecidableExactDiff (x y : Double) : Decidable (ExactDiff x y) :=
  match x, y with
  | finite a, finite b => instDecidableIsValue (a - b)
  | finite _, nonFinite => isFalse id
  | nonFinite, _ => isFalse id

end Double

/-- A concrete model on a two-cell mesh, with the usual k-omega SST constants; cell 1 is
the only cell next to a wall.  Used to evaluate the definitions. -/
def exampleModel : DAkOmegaSSTFIML ℚ where
  alphaK1_ := ⟨85 / 100⟩
  alphaK2_ := ⟨1⟩
  alphaOmega1_ := ⟨1 / 2⟩
  alphaOmega2_ := ⟨856 / 1000⟩
  gamma1_ := ⟨5 / 9⟩
  gamma2_ := ⟨44 / 100⟩
  beta1_ := ⟨75 / 1000⟩
  beta2_ := ⟨828 / 10000⟩
  betaStar_ := ⟨9 / 100⟩
  a1_ := ⟨31 / 100⟩
  b1_ := ⟨1⟩
  c1_ := ⟨10⟩
  F3_ := false
  mesh_ := ⟨2, [1]⟩
  nut_ := ⟨[2, 3], []⟩
  nu := ⟨[1 / 10, 1 / 10], []⟩
  omega_ := ⟨[10, 20], []⟩
  omegaNearWall_ := [0]

/-- The usual k-omega SST constants as a double-precision build holds them (each the
binary64 number nearest to its decimal value: 0.85, 1, 0.5, 0.856, 5/9, 0.44, 0.075,
0.0828, 0.09, 0.31, 1, 10), on a two-cell mesh whose cell 1 is next to a wall. -/
def exampleModelDouble : DAkOmegaSSTFIML Double where
  alphaK1_ := ⟨Double.finite (7656119366529843 / 2 ^ 53)⟩
  alphaK2_ := ⟨Double.finite 1⟩
  alphaOmega1_ := ⟨Double.finite (1 / 2)⟩
  alphaOmega2_ := ⟨Double.finite (7710162562058289 / 2 ^ 53)⟩
  gamma1_ := ⟨Double.finite (2501999792983609 / 2 ^ 52)⟩
  gamma2_ := ⟨Double.finite (7926335344172073 / 2 ^ 54)⟩
  beta1_ := ⟨Double.finite (5404319552844595 / 2 ^ 56)⟩
  beta2_ := ⟨Double.finite (5966368786340433 / 2 ^ 56)⟩
  betaStar_ := ⟨Double.finite (3242591731706757 / 2 ^ 55)⟩
  a1_ := ⟨Double.finite (5584463537939415 / 2 ^ 54)⟩
  b1_ := ⟨Double.finite 1⟩
  c1_ := ⟨Double.finite 10⟩
  F3_ := false
  mesh_ := ⟨2, [1]⟩
  nut_ := ⟨[Double.finite 2, Double.finite 3], []⟩
  nu := ⟨[Double.finite (1 / 8), Double.finite (1 / 8)], []⟩
  omega_ := ⟨[Double.finite 10, Double.finite 20], []⟩
  omegaNearWall_ := [Double.finite 0]

/-! ## Cell-wise evaluation of the field operators -/

section BlendCells

variable {α : Type} [Add α] [Sub α] [Mul α]

open DAkOmegaSSTFIML

theorem blend_internal_eq (F1 : volScalarField α) (psi1 psi2 : dimensionedScalar α) :
    (blend F1 psi1 psi2).internal
      = F1.internal.map (fun f => f * (psi1.value - psi2.value) + psi2.value) := by
  show List.map _ (List.map _ F1.internal) = _
  rw [List.map_map]
  rfl

theorem blendInternal_field_eq (F1 : Internal α) (psi1 psi2 : dimensionedScalar α) :
    (blendInternal F1 psi1 psi2).field
      = F1.field.map (fun f => f * (psi1.value - psi2.value) + psi2.value) := by
  show List.map _ (List.map _ F1.field) = _
  rw [List.map_map]
  rfl

theorem blend_cell (F1 : volScalarField α) (psi1 psi2 : dimensionedScalar α) (i : Nat) :
    (blend F1 psi1 psi2).internal[i]?
      = (F1.internal[i]?).map (fun f => f * (psi1.value - psi2.value) + psi2.value) := by
  rw [blend_internal_eq, List.getElem?_map]

theorem blendInternal_cell (F1 : Internal α) (psi1 psi2 : dimensionedScalar α) (i : Nat) :
    (blendInternal F1 psi1 psi2).field[i]?
      = (F1.field[i]?).map (fun f => f * (psi1.value - psi2.value) + psi2.value) := by
  rw [blendInternal_field_eq, List.getElem?_map]

/-- The blend on a one-cell field. -/
theorem blend_single (x y z : α) :
    (blend ⟨[x], []⟩ ⟨y⟩ ⟨z⟩).internal[0]? = some (x * (y - z) + z) := rfl

/-- The internal-field blend on a one-cell field. -/
theorem blendInternal_single (x y z : α) :
    (blendInternal ⟨[x]⟩ ⟨y⟩ ⟨z⟩).field[0]? = some (x * (y - z) + z) := rfl

end BlendCells

section CellLemmas

variable {α : Type} [LinearOrderedField α]

open DAkOmegaSSTFIML

theorem mul_add_cell (F G H : volScalarField α) (i : Nat) (f g h : α)
    (hf : F.internal[i]? = some f) (hg : G.internal[i]? = some g)
    (hh : H.internal[i]? = some h) :
    (F * G + H).internal[i]? = some (f * g + h) := by
  show (List.zipWith _ (List.zipWith _ F.internal G.internal) H.internal)[i]? = _
  simp [List.getElem?_zipWith, hf, hg, hh]

theorem DkEff_cell (m : DAkOmegaSSTFIML α) (F1 : volScalarField α) (i : Nat) (f t n : α)
    (hf : F1.internal[i]? = some f) (ht : m.nut_.internal[i]? = some t)
    (hn : m.nu.internal[i]? = some n) :
    (m.DkEff F1).internal[i]?
      = some ((f * (m.alphaK1_.value - m.alphaK2_.value) + m.alphaK2_.value) * t + n) := by
  unfold DkEff alphaK
  exact mul_add_cell _ _ _ i _ t n (by rw [blend_cell, hf]; rfl) ht hn

theorem DomegaEff_cell (m : DAkOmegaSSTFIML α) (F1 : volScalarField α) (i : Nat) (f t n : α)
    (hf : F1.internal[i]? = some f) (ht : m.nut_.internal[i]? = some t)
    (hn : m.nu.internal[i]? = some n) :
    (m.DomegaEff F1).internal[i]?
      = some ((f * (m.alphaOmega1_.value - m.alphaOmega2_.value) + m.alphaOmega2_.value) * t
          + n) := by
  unfold DomegaEff alphaOmega
  exact mul_add_cell _ _ _ i _ t n (by rw [blend_cell, hf]; rfl) ht hn

theorem set_getD_self (om : List α) (c : Nat) : om.set c (om.getD c 0) = om := by
  by_cases h : c < om.length
  · apply List.ext_getElem?
    intro j
    rw [List.getElem?_set, List.getD_eq_getElem om 0 h]
    by_cases hj : c = j
    · subst hj
      simp [h]
    · simp [hj]
  · exact List.set_eq_of_length_le (Nat.le_of_not_lt h)

theorem restoreNearWall_saved (cells : List Nat) (om : List α) :
    restoreNearWall cells (cells.map (fun c => om.getD c 0)) om = om := by
  induction cells with
  | nil => rfl
  | cons c cs ih =>
    show restoreNearWall cs (cs.map (fun c => om.getD c 0)) (om.set c (om.getD c 0)) = om
    rw [set_getD_self]
    exact ih

theorem blend_value_bounds (f p1 p2 : α) (h0 : 0 ≤ f) (h1 : f ≤ 1) :
    min p1 p2 ≤ f * (p1 - p2) + p2 ∧ f * (p1 - p2) + p2 ≤ max p1 p2 := by
  rcases le_total p1 p2 with h | h
  · rw [min_eq_left h, max_eq_right h]
    constructor <;> nlinarith
  · rw [min_eq_right h, max_eq_left h]
    constructor <;> nlinarith

theorem blend_value_nonneg (f p1 p2 : α) (h0 : 0 ≤ f) (h1 : f ≤ 1) (hp1 : 0 ≤ p1)
    (hp2 : 0 ≤ p2) : 0 ≤ f * (p1 - p2) + p2 :=
  le_trans (le_min hp1 hp2) (blend_value_bounds f p1 p2 h0 h1).1

theorem labelWrap_of_fits (w : Nat) (z : Int) (hw : 0 < w) (h0 : 0 ≤ z)
    (h1 : z < 2 ^ (w - 1)) : labelWrap w z = z := by
  have hpow : (2 : Int) ^ w = 2 * 2 ^ (w - 1) := by
    obtain ⟨k, rfl⟩ : ∃ k, w = k + 1 := ⟨w - 1, by omega⟩
    simp [pow_succ, mul_comm]
  have hpos : (0 : Int) < 2 ^ (w - 1) := by positivity
  unfold labelWrap
  rw [Int.emod_eq_of_lt (by omega) (by omega)]
  omega

end CellLemmas

/-! ## Rounding to nearest -/

section Rounding

theorem floor_le_roundHalfEven (x : ℚ) : ⌊x⌋ ≤ roundHalfEven x := by
  unfold roundHalfEven
  split_ifs <;> omega

theorem roundHalfEven_le_floor_add_one (x : ℚ) : roundHalfEven x ≤ ⌊x⌋ + 1 := by
  unfold roundHalfEven
  split_ifs <;> omega

theorem int_le_roundHalfEven (x : ℚ) (N : ℤ) (h : (N : ℚ) ≤ x) : N ≤ roundHalfEven x :=
  le_trans (Int.le_floor.mpr h) (floor_le_roundHalfEven x)

theorem roundHalfEven_le_int (x : ℚ) (N : ℤ) (h : x ≤ (N : ℚ)) : roundHalfEven x ≤ N := by
  have hfl : (⌊x⌋ : ℚ) ≤ x := Int.floor_le x
  by_cases hfr : x - ⌊x⌋ < 1 / 2
  · unfold roundHalfEven
    rw [if_pos hfr]
    exact Int.cast_le.mp (le_trans hfl h)
  · have hlt : (⌊x⌋ : ℚ) < N := by linarith
    have : ⌊x⌋ < N := Int.cast_lt.mp hlt
    have := roundHalfEven_le_floor_add_one x
    omega

theorem roundHalfEven_mono {x y : ℚ} (h : x ≤ y) : roundHalfEven x ≤ roundHalfEven y := by
  rcases (Int.floor_mono h).lt_or_eq with hlt | heq
  · have h1 := roundHalfEven_le_floor_add_one x
    have h2 := floor_le_roundHalfEven y
    omega
  · unfold roundHalfEven
    rw [← heq]
    split_ifs <;> first | omega | (exfalso; linarith)

theorem roundHalfEven_intCast (n : ℤ) : roundHalfEven (n : ℚ) = n := by
  unfold roundHalfEven
  simp

theorem ulp_pos (q : ℚ) : 0 < ulp q := by
  unfold ulp
  positivity

/-- Rounding on one grid never crosses a grid point. -/
theorem grid_round_le (u x : ℚ) (N : ℤ) (hu : 0 < u) (h : x ≤ N * u) :
    (roundHalfEven (x / u) : ℚ) * u ≤ N * u := by
  have : x / u ≤ N := by rw [div_le_iff₀ hu]; exact h
  have := roundHalfEven_le_int _ N this
  have hc : (roundHalfEven (x / u) : ℚ) ≤ N := by exact_mod_cast this
  exact mul_le_mul_of_nonneg_right hc hu.le

theorem grid_le_round (u x : ℚ) (N : ℤ) (hu : 0 < u) (h : N * u ≤ x) :
    N * u ≤ (roundHalfEven (x / u) : ℚ) * u := by
  have : (N : ℚ) ≤ x / u := by rw [le_div_iff₀ hu]; exact h
  have := int_le_roundHalfEven _ N this
  have hc : (N : ℚ) ≤ roundHalfEven (x / u) := by exact_mod_cast this
  exact mul_le_mul_of_nonneg_right hc hu.le

theorem roundNearest_zero : roundNearest 0 = 0 := by
  unfold roundNearest
  simp [roundHalfEven]

theorem roundNearest_nonneg {q : ℚ} (h : 0 ≤ q) : 0 ≤ roundNearest q := by
  have := grid_le_round (ulp q) q 0 (ulp_pos q) (by simpa using h)
  simpa [roundNearest] using this

theorem roundNearest_nonpos {q : ℚ} (h : q ≤ 0) : roundNearest q ≤ 0 := by
  have := grid_round_le (ulp q) q 0 (ulp_pos q) (by simpa using h)
  simpa [roundNearest] using this

/-- A power of two at or above the grid exponent is a grid point. -/
theorem zpow_eq_int_mul (e k : ℤ) (h : k ≤ e) :
    ∃ N : ℤ, (2 : ℚ) ^ e = N * (2 : ℚ) ^ k := by
  refine ⟨2 ^ (e - k).toNat, ?_⟩
  have h2 : e = ((e - k).toNat : ℤ) + k := by
    rw [Int.toNat_of_nonneg (by omega)]; ring
  conv_lhs => rw [h2]
  rw [zpow_add₀ (by norm_num : (2 : ℚ) ≠ 0), zpow_natCast]
  push_cast
  rfl

theorem binade_spec {q : ℚ} (h : q ≠ 0) :
    (2 : ℚ) ^ binade q ≤ |q| ∧ |q| < (2 : ℚ) ^ (binade q + 1) := by
  have hpos : 0 < |q| := abs_pos.mpr h
  constructor
  · have := Int.zpow_log_le_self (by norm_num : 1 < 2) hpos
    simpa [binade] using this
  · have := Int.lt_zpow_succ_log_self (by norm_num : 1 < 2) |q|
    simpa [binade] using this

theorem binade_mono {x y : ℚ} (hx : x ≠ 0) (h : |x| ≤ |y|) : binade x ≤ binade y :=
  Int.log_mono_right (abs_pos.mpr hx) h


theorem ulp_eq (q : ℚ) : ulp q = (2 : ℚ) ^ (max (binade q) (-1022) - 52) := rfl

/-- Rounding is monotone on positive arguments. -/
theorem roundNearest_mono_pos {x y : ℚ} (hx : 0 < x) (h : x ≤ y) :
    roundNearest x ≤ roundNearest y := by
  have hy : 0 < y := lt_of_lt_of_le hx h
  have hb : binade x ≤ binade y :=
    binade_mono hx.ne' (by rw [abs_of_pos hx, abs_of_pos hy]; exact h)
  rcases (max_le_max_right (-1022) hb).lt_or_eq with hlt | heq
  · -- `y` lies in a higher binade: `2 ^ binade y` separates the two roundings
    have hky : max (binade y) (-1022) = binade y := by
      rcases le_total (binade y) (-1022) with h1 | h1
      · exfalso
        rw [max_eq_right h1] at hlt
        exact absurd hlt (not_lt.mpr (le_max_right _ _))
      · exact max_eq_left h1
    have hxlt : binade x + 1 ≤ binade y := by
      have := le_max_left (binade x) (-1022)
      omega
    have hxP : x ≤ (2 : ℚ) ^ binade y := by
      have h1 := (binade_spec hx.ne').2
      rw [abs_of_pos hx] at h1
      exact le_trans h1.le (zpow_le_zpow_right₀ (by norm_num) hxlt)
    have hPy : (2 : ℚ) ^ binade y ≤ y := by
      have h1 := (binade_spec hy.ne').1
      rwa [abs_of_pos hy] at h1
    obtain ⟨N, hN⟩ := zpow_eq_int_mul (binade y) (max (binade x) (-1022) - 52) (by omega)
    obtain ⟨M, hM⟩ := zpow_eq_int_mul (binade y) (max (binade y) (-1022) - 52) (by omega)
    rw [← ulp_eq] at hN hM
    have h1 := grid_round_le (ulp x) x N (ulp_pos x) (by rw [← hN]; exact hxP)
    have h2 := grid_le_round (ulp y) y M (ulp_pos y) (by rw [← hM]; exact hPy)
    rw [← hN] at h1
    rw [← hM] at h2
    exact le_trans h1 h2
  · have hu : ulp x = ulp y := by rw [ulp_eq, ulp_eq, heq]
    unfold roundNearest
    rw [hu]
    have hdiv : x / ulp y ≤ y / ulp y := div_le_div_of_nonneg_right h (ulp_pos y).le
    have := roundHalfEven_mono hdiv
    have hc : (roundHalfEven (x / ulp y) : ℚ) ≤ roundHalfEven (y / ulp y) := by exact_mod_cast this
    exact mul_le_mul_of_nonneg_right hc (ulp_pos y).le

/-- Rounding is monotone on negative arguments. -/
theorem roundNearest_mono_neg {x y : ℚ} (hy : y < 0) (h : x ≤ y) :
    roundNearest x ≤ roundNearest y := by
  have hx : x < 0 := lt_of_le_of_lt h hy
  have hb : binade y ≤ binade x :=
    binade_mono hy.ne (by rw [abs_of_neg hx, abs_of_neg hy]; linarith)
  rcases (max_le_max_right (-1022) hb).lt_or_eq with hlt | heq
  · have hkx : max (binade x) (-1022) = binade x := by
      rcases le_total (binade x) (-1022) with h1 | h1
      · exfalso
        rw [max_eq_right h1] at hlt
        exact absurd hlt (not_lt.mpr (le_max_right _ _))
      · exact max_eq_left h1
    have hylt : binade y + 1 ≤ binade x := by
      have := le_max_left (binade y) (-1022)
      omega
    have hyP : -(2 : ℚ) ^ binade x ≤ y := by
      have h1 := (binade_spec hy.ne).2
      rw [abs_of_neg hy] at h1
      have := le_trans h1.le (zpow_le_zpow_right₀ (by norm_num) hylt)
      linarith
    have hPx : x ≤ -(2 : ℚ) ^ binade x := by
      have h1 := (binade_spec hx.ne).1
      rw [abs_of_neg hx] at h1
      linarith
    obtain ⟨N, hN⟩ := zpow_eq_int_mul (binade x) (max (binade y) (-1022) - 52) (by omega)
    obtain ⟨M, hM⟩ := zpow_eq_int_mul (binade x) (max (binade x) (-1022) - 52) (by omega)
    rw [← ulp_eq] at hN hM
    have h1 := grid_round_le (ulp x) x (-M) (ulp_pos x) (by push_cast; rw [neg_mul, ← hM]; exact hPx)
    have h2 := grid_le_round (ulp y) y (-N) (ulp_pos y) (by push_cast; rw [neg_mul, ← hN]; exact hyP)
    push_cast at h1 h2
    rw [neg_mul, ← hM] at h1
    rw [neg_mul, ← hN] at h2
    exact le_trans h1 h2
  · have hu : ulp x = ulp y := by rw [ulp_eq, ulp_eq, heq]
    unfold roundNearest
    rw [hu]
    have hdiv : x / ulp y ≤ y / ulp y := div_le_div_of_nonneg_right h (ulp_pos y).le
    have := roundHalfEven_mono hdiv
    have hc : (roundHalfEven (x / ulp y) : ℚ) ≤ roundHalfEven (y / ulp y) := by exact_mod_cast this
    exact mul_le_mul_of_nonneg_right hc (ulp_pos y).le

/-- Rounding to nearest is monotone. -/
theorem roundNearest_mono {x y : ℚ} (h : x ≤ y) : roundNearest x ≤ roundNearest y := by
  rcases lt_or_le 0 x with hx | hx
  · exact roundNearest_mono_pos hx h
  · rcases lt_or_le y 0 with hy | hy
    · exact roundNearest_mono_neg hy h
    · exact le_trans (roundNearest_nonpos hx) (roundNearest_nonneg hy)


theorem roundHalfEven_eq_of_near (x : ℚ) (n : ℤ) (h1 : (n : ℚ) - 1 / 2 < x)
    (h2 : x < n + 1 / 2) : roundHalfEven x = n := by
  rcases le_or_lt (n : ℚ) x with h | h
  · have hf : ⌊x⌋ = n := Int.floor_eq_iff.mpr ⟨h, by linarith⟩
    unfold roundHalfEven
    rw [hf, if_pos (by linarith)]
  · have hf : ⌊x⌋ = n - 1 := Int.floor_eq_iff.mpr ⟨by push_cast; linarith, by push_cast; linarith⟩
    unfold roundHalfEven
    rw [hf, if_neg (by push_cast; linarith), if_pos (by push_cast; linarith)]
    ring

theorem roundHalfEven_tie_even (x : ℚ) (n : ℤ) (h : x = n + 1 / 2) (he : n % 2 = 0) :
    roundHalfEven x = n := by
  have hf : ⌊x⌋ = n := Int.floor_eq_iff.mpr ⟨by linarith, by linarith⟩
  unfold roundHalfEven
  rw [hf, if_neg (by linarith), if_neg (by linarith), if_pos he]

theorem roundHalfEven_tie_odd (x : ℚ) (n : ℤ) (h : x = n + 1 / 2) (ho : n % 2 = 1) :
    roundHalfEven x = n + 1 := by
  have hf : ⌊x⌋ = n := Int.floor_eq_iff.mpr ⟨by linarith, by linarith⟩
  unfold roundHalfEven
  rw [hf, if_neg (by linarith), if_neg (by linarith), if_neg (by omega)]

theorem binade_eq_of (q : ℚ) (e : ℤ) (h1 : (2 : ℚ) ^ e ≤ |q|) (h2 : |q| < (2 : ℚ) ^ (e + 1)) :
    binade q = e := by
  have hpos : 0 < |q| := lt_of_lt_of_le (by positivity) h1
  have ha : e ≤ binade q :=
    (Int.zpow_le_iff_le_log (by norm_num : 1 < 2) hpos).mp (by simpa using h1)
  have hb : binade q < e + 1 :=
    (Int.lt_zpow_iff_log_lt (by norm_num : 1 < 2) hpos).mp (by simpa using h2)
  omega

/-- Rounding evaluated from the binade `e` of `q` and the rounded significand `n`. -/
theorem roundNearest_eq_of (q : ℚ) (e k n : ℤ) (h1 : (2 : ℚ) ^ e ≤ |q|)
    (h2 : |q| < (2 : ℚ) ^ (e + 1)) (hk : max e (-1022) - 52 = k)
    (hn : roundHalfEven (q / (2 : ℚ) ^ k) = n) :
    roundNearest q = n * (2 : ℚ) ^ k := by
  unfold roundNearest
  rw [ulp_eq, binade_eq_of q e h1 h2, hk, hn]

/-- The nearest integer is at most one half away. -/
theorem abs_roundHalfEven_sub_le (x : ℚ) : |(roundHalfEven x : ℚ) - x| ≤ 1 / 2 := by
  have h1 : (⌊x⌋ : ℚ) ≤ x := Int.floor_le x
  have h2 : x < ⌊x⌋ + 1 := Int.lt_floor_add_one x
  unfold roundHalfEven
  rw [abs_le]
  split_ifs <;> constructor <;> push_cast <;> linarith

/-- Rounding to nearest moves a value by at most half the spacing of the grid. -/
theorem abs_roundNearest_sub_le (q : ℚ) : |roundNearest q - q| ≤ ulp q / 2 := by
  have hu := ulp_pos q
  have h := abs_roundHalfEven_sub_le (q / ulp q)
  have e : roundNearest q - q = ((roundHalfEven (q / ulp q) : ℚ) - q / ulp q) * ulp q := by
    unfold roundNearest
    field_simp
  rw [e, abs_mul, abs_of_pos hu]
  calc |(roundHalfEven (q / ulp q) : ℚ) - q / ulp q| * ulp q
      ≤ 1 / 2 * ulp q := mul_le_mul_of_nonneg_right h hu.le
    _ = ulp q / 2 := by ring

end Rounding

/-! ## Double-precision evaluation of the blending expression -/

section DoubleLemmas

open Double

theorem round_eq_finite_iff (q r : ℚ) :
    Double.round q = Double.finite r ↔ |roundNearest q| ≤ maxFinite ∧ roundNearest q = r := by
  unfold Double.round
  split_ifs with h
  · simp [h]
  · simp [h]

theorem isValue_iff (q : ℚ) : IsValue q ↔ roundNearest q = q ∧ |q| ≤ maxFinite := by
  unfold IsValue
  rw [round_eq_finite_iff]
  constructor
  · rintro ⟨h1, h2⟩
    exact ⟨h2, by rwa [h2] at h1⟩
  · rintro ⟨h1, h2⟩
    exact ⟨by rwa [h1], h1⟩

theorem round_zero : Double.round 0 = Double.finite 0 := by
  rw [round_eq_finite_iff, roundNearest_zero]
  exact ⟨by norm_num [maxFinite], rfl⟩

theorem finite_add (a b : ℚ) : Double.finite a + Double.finite b = Double.round (a + b) := rfl

theorem finite_sub (a b : ℚ) : Double.finite a - Double.finite b = Double.round (a - b) := rfl

theorem finite_mul (a b : ℚ) : Double.finite a * Double.finite b = Double.round (a * b) := rfl

/-- A rounding evaluated from the binade `e`, the grid exponent `k` and the rounded
significand `n` of the exact result. -/
theorem round_eq_of (q : ℚ) (e k n : ℤ) (r : ℚ) (h1 : (2 : ℚ) ^ e ≤ |q|)
    (h2 : |q| < (2 : ℚ) ^ (e + 1)) (hk : max e (-1022) - 52 = k)
    (hn : roundHalfEven (q / (2 : ℚ) ^ k) = n) (hr : (n : ℚ) * (2 : ℚ) ^ k = r)
    (hmax : |r| ≤ maxFinite) : Double.round q = Double.finite r := by
  rw [round_eq_finite_iff, roundNearest_eq_of q e k n h1 h2 hk hn, hr]
  exact ⟨hmax, rfl⟩

/-- A rational `n * 2 ^ k` on the grid of its own binade is a binary64 number. -/
theorem isValue_of (q : ℚ) (e k n : ℤ) (h1 : (2 : ℚ) ^ e ≤ |q|)
    (h2 : |q| < (2 : ℚ) ^ (e + 1)) (hk : max e (-1022) - 52 = k)
    (hq : (n : ℚ) * (2 : ℚ) ^ k = q) (hmax : |q| ≤ maxFinite) : IsValue q := by
  refine round_eq_of q e k n q h1 h2 hk ?_ hq hmax
  have : q / (2 : ℚ) ^ k = (n : ℚ) := by
    rw [← hq]
    field_simp
  rw [this, roundHalfEven_intCast]

theorem isValue_zero : IsValue 0 := round_zero

/-- In a cell with `F1 = 0` the blending expression returns its far coefficient. -/
theorem blend_value_zero (x y : Double) (hy : Valid y) (hd : IsFinite (x - y)) :
    Double.finite 0 * (x - y) + y = y := by
  cases hxy : x - y with
  | nonFinite => rw [hxy] at hd; exact absurd hd id
  | finite d =>
    cases y with
    | nonFinite => exact absurd hy id
    | finite b =>
      rw [finite_mul, zero_mul, round_zero, finite_add, zero_add]
      exact hy

/-- In a cell with `F1 = 1` the blending expression returns its near coefficient when
the difference of the two coefficients is formed without rounding. -/
theorem blend_value_one (x y : Double) (hx : Valid x) (hd : ExactDiff x y) :
    Double.finite 1 * (x - y) + y = x := by
  cases x with
  | nonFinite => exact absurd hx id
  | finite a =>
    cases y with
    | nonFinite => exact absurd hd id
    | finite b =>
      have hd' : Double.round (a - b) = Double.finite (a - b) := hd
      rw [finite_sub, hd', finite_mul, one_mul, hd', finite_add, sub_add_cancel]
      exact hx

theorem nonFinite_add (y : Double) : Double.nonFinite + y = Double.nonFinite := rfl

theorem add_nonFinite (x : Double) : x + Double.nonFinite = Double.nonFinite := by
  cases x <;> rfl

theorem mul_nonFinite (x : Double) : x * Double.nonFinite = Double.nonFinite := by
  cases x <;> rfl

theorem abs_le_of_between {lo hi v M : ℚ} (h1 : lo ≤ v) (h2 : v ≤ hi) (hlo : |lo| ≤ M)
    (hhi : |hi| ≤ M) : |v| ≤ M := by
  rw [abs_le] at *
  constructor <;> linarith [hlo.1, hlo.2, hhi.1, hhi.2]

/-- Rounded evaluation of `f * d + b` for `0 ≤ f ≤ 1` stays between the evaluations at
`f = 0` and `f = 1`, and is finite when those two are. -/
theorem blend_value_between (x y : Double) (f e1 e0 : ℚ) (h0 : 0 ≤ f) (h1 : f ≤ 1)
    (hE1 : Double.finite 1 * (x - y) + y = Double.finite e1)
    (hE0 : Double.finite 0 * (x - y) + y = Double.finite e0) :
    ∃ r, Double.finite f * (x - y) + y = Double.finite r ∧ min e1 e0 ≤ r ∧ r ≤ max e1 e0 := by
  cases hxy : x - y with
  | nonFinite =>
    rw [hxy, mul_nonFinite, nonFinite_add] at hE1
    exact Double.noConfusion hE1
  | finite d =>
    cases y with
    | nonFinite =>
      rw [add_nonFinite] at hE1
      exact Double.noConfusion hE1
    | finite b =>
      rw [hxy] at hE1 hE0
      rw [finite_mul, one_mul] at hE1
      rw [finite_mul, zero_mul, round_zero, finite_add, zero_add, round_eq_finite_iff] at hE0
      cases ht1 : Double.round d with
      | nonFinite =>
        rw [ht1, nonFinite_add] at hE1
        exact Double.noConfusion hE1
      | finite t1 =>
        rw [ht1, finite_add, round_eq_finite_iff] at hE1
        rw [round_eq_finite_iff] at ht1
        obtain ⟨hm1, rfl⟩ := ht1
        obtain ⟨hme1, rfl⟩ := hE1
        obtain ⟨hme0, rfl⟩ := hE0
        have hz : roundNearest 0 = 0 := roundNearest_zero
        rcases le_total 0 d with hd | hd
        · have ht0 : roundNearest 0 ≤ roundNearest (f * d) :=
            roundNearest_mono (mul_nonneg h0 hd)
          have ht1 : roundNearest (f * d) ≤ roundNearest d :=
            roundNearest_mono (by nlinarith)
          rw [hz] at ht0
          have htm : |roundNearest (f * d)| ≤ maxFinite :=
            abs_le_of_between ht0 ht1 (by norm_num [maxFinite]) hm1
          have hr0 : roundNearest b ≤ roundNearest (roundNearest (f * d) + b) :=
            roundNearest_mono (by linarith)
          have hr1 : roundNearest (roundNearest (f * d) + b)
              ≤ roundNearest (roundNearest d + b) := roundNearest_mono (by linarith)
          refine ⟨roundNearest (roundNearest (f * d) + b), ?_, ?_, ?_⟩
          · rw [finite_mul, (round_eq_finite_iff _ _).mpr ⟨htm, rfl⟩, finite_add,
              round_eq_finite_iff]
            exact ⟨abs_le_of_between hr0 hr1 hme0 hme1, rfl⟩
          · exact le_trans (min_le_right _ _) hr0
          · exact le_trans hr1 (le_max_left _ _)
        · have ht0 : roundNearest (f * d) ≤ roundNearest 0 :=
            roundNearest_mono (mul_nonpos_of_nonneg_of_nonpos h0 hd)
          have ht1 : roundNearest d ≤ roundNearest (f * d) :=
            roundNearest_mono (by nlinarith)
          rw [hz] at ht0
          have htm : |roundNearest (f * d)| ≤ maxFinite :=
            abs_le_of_between ht1 ht0 hm1 (by norm_num [maxFinite])
          have hr0 : roundNearest (roundNearest (f * d) + b) ≤ roundNearest b :=
            roundNearest_mono (by linarith)
          have hr1 : roundNearest (roundNearest d + b)
              ≤ roundNearest (roundNearest (f * d) + b) := roundNearest_mono (by linarith)
          refine ⟨roundNearest (roundNearest (f * d) + b), ?_, ?_, ?_⟩
          · rw [finite_mul, (round_eq_finite_iff _ _).mpr ⟨htm, rfl⟩, finite_add,
              round_eq_finite_iff]
            exact ⟨abs_le_of_between hr1 hr0 hme1 hme0, rfl⟩
          · exact le_trans (min_le_left _ _) hr1
          · exact le_trans hr0 (le_max_right _ _)

/-- A finite value of the blending expression is the thrice rounded `f * (a - b) + b`. -/
theorem blend_value_finite_eq (f a b r : ℚ)
    (h : Double.finite f * (Double.finite a - Double.finite b) + Double.finite b
      = Double.finite r) :
    r = roundNearest (roundNearest (f * roundNearest (a - b)) + b) := by
  rw [finite_sub] at h
  cases hd : Double.round (a - b) with
  | nonFinite =>
    rw [hd, mul_nonFinite, nonFinite_add] at h
    exact Double.noConfusion h
  | finite d =>
    rw [round_eq_finite_iff] at hd
    obtain ⟨hmd, rfl⟩ := hd
    rw [(round_eq_finite_iff _ _).mpr ⟨hmd, rfl⟩, finite_mul] at h
    cases ht : Double.round (f * roundNearest (a - b)) with
    | nonFinite =>
      rw [ht, nonFinite_add] at h
      exact Double.noConfusion h
    | finite t =>
      rw [round_eq_finite_iff] at ht
      obtain ⟨hmt, rfl⟩ := ht
      rw [(round_eq_finite_iff _ _).mpr ⟨hmt, rfl⟩, finite_add,
        round_eq_finite_iff] at h
      exact h.2.symm

/-- Distance of the double-precision blend from the exact linear interpolation: the
three rounding errors, each at most half the grid spacing at the value rounded. -/
theorem blend_value_error (f a b r : ℚ)
    (h : Double.finite f * (Double.finite a - Double.finite b) + Double.finite b
      = Double.finite r) :
    |r - (f * a + (1 - f) * b)|
      ≤ |f| * (ulp (a - b) / 2) + ulp (f * roundNearest (a - b)) / 2
        + ulp (roundNearest (f * roundNearest (a - b)) + b) / 2 := by
  rw [blend_value_finite_eq f a b r h]
  have e1 := abs_roundNearest_sub_le (a - b)
  have e2 := abs_roundNearest_sub_le (f * roundNearest (a - b))
  have e3 := abs_roundNearest_sub_le (roundNearest (f * roundNearest (a - b)) + b)
  have e1' : |f * (roundNearest (a - b) - (a - b))| ≤ |f| * (ulp (a - b) / 2) := by
    rw [abs_mul]
    exact mul_le_mul_of_nonneg_left e1 (abs_nonneg f)
  have split : roundNearest (roundNearest (f * roundNearest (a - b)) + b)
        - (f * a + (1 - f) * b)
      = (roundNearest (roundNearest (f * roundNearest (a - b)) + b)
          - (roundNearest (f * roundNearest (a - b)) + b))
        + (roundNearest (f * roundNearest (a - b)) - f * roundNearest (a - b))
        + f * (roundNearest (a - b) - (a - b)) := by ring
  rw [split]
  have t1 := abs_add ((roundNearest (roundNearest (f * roundNearest (a - b)) + b)
          - (roundNearest (f * roundNearest (a - b)) + b))
        + (roundNearest (f * roundNearest (a - b)) - f * roundNearest (a - b)))
      (f * (roundNearest (a - b) - (a - b)))
  have t2 := abs_add (roundNearest (roundNearest (f * roundNearest (a - b)) + b)
          - (roundNearest (f * roundNearest (a - b)) + b))
      (roundNearest (f * roundNearest (a - b)) - f * roundNearest (a - b))
  linarith

end DoubleLemmas

/-! ### Evaluations at concrete double-precision values

`(5764607523034235 / 2 ^ 59)` is the double nearest to `0.01`, `(7656119366529843 / 2 ^ 53)` the one nearest to `0.85`, and
`(3602879701896397 / 2 ^ 55)` the one nearest to `0.1`. -/

section Evaluations

open DAkOmegaSSTFIML Double

theorem isValue_one_hundredth : IsValue (5764607523034235 / 2 ^ 59) :=
  isValue_of (5764607523034235 / 2 ^ 59) (-7) (-59) 5764607523034235
      (by rw [abs_of_pos (by norm_num)]; norm_num) (by rw [abs_of_pos (by norm_num)]; norm_num)
      (by decide) (by norm_num) (by rw [abs_le]; constructor <;> norm_num [maxFinite])

theorem isValue_one_tenth : IsValue (3602879701896397 / 2 ^ 55) :=
  isValue_of (3602879701896397 / 2 ^ 55) (-4) (-56) 7205759403792794
      (by rw [abs_of_pos (by norm_num)]; norm_num) (by rw [abs_of_pos (by norm_num)]; norm_num)
      (by decide) (by norm_num) (by rw [abs_le]; constructor <;> norm_num [maxFinite])

/-- The code's expression `F1*(a-b)+b` at `F1 = 0.01`, `a = 0.85`, `b = 1`: the double
nearest to `0.9985`. -/
theorem blend_value_alphaK_example :
    Double.finite (5764607523034235 / 2 ^ 59) * (Double.finite (7656119366529843 / 2 ^ 53) - Double.finite 1) + Double.finite 1
      = Double.finite (8993688455858881 / 2 ^ 53) := by
  have hd : Double.finite (7656119366529843 / 2 ^ 53) - Double.finite 1 = Double.finite (-1351079888211149 / 2 ^ 53) :=
    round_eq_of ((7656119366529843 / 2 ^ 53) - 1) (-3) (-55) (-5404319552844596) (-1351079888211149 / 2 ^ 53)
      (by rw [abs_of_neg (by norm_num)]; norm_num) (by rw [abs_of_neg (by norm_num)]; norm_num)
      (by decide)
      (roundHalfEven_eq_of_near _ (-5404319552844596) (by norm_num) (by norm_num))
      (by norm_num) (by rw [abs_le]; constructor <;> norm_num [maxFinite])
  have ht : Double.finite (5764607523034235 / 2 ^ 59) * Double.finite (-1351079888211149 / 2 ^ 53) = Double.finite (-6917529027641083 / 2 ^ 62) :=
    round_eq_of ((5764607523034235 / 2 ^ 59) * (-1351079888211149 / 2 ^ 53)) (-10) (-62) (-6917529027641083) (-6917529027641083 / 2 ^ 62)
      (by rw [abs_of_neg (by norm_num)]; norm_num) (by rw [abs_of_neg (by norm_num)]; norm_num)
      (by decide)
      (roundHalfEven_eq_of_near _ (-6917529027641083) (by norm_num) (by norm_num))
      (by norm_num) (by rw [abs_le]; constructor <;> norm_num [maxFinite])
  have hr : Double.finite (-6917529027641083 / 2 ^ 62) + Double.finite 1 = Double.finite (8993688455858881 / 2 ^ 53) :=
    round_eq_of ((-6917529027641083 / 2 ^ 62) + 1) (-1) (-53) 8993688455858881 (8993688455858881 / 2 ^ 53)
      (by rw [abs_of_pos (by norm_num)]; norm_num) (by rw [abs_of_pos (by norm_num)]; norm_num)
      (by decide)
      (roundHalfEven_eq_of_near _ 8993688455858881 (by norm_num) (by norm_num))
      (by norm_num) (by rw [abs_le]; constructor <;> norm_num [maxFinite])
  rw [hd, ht, hr]

/-- The interpolation `F1*a+(1-F1)*b` at the same values: one unit in the last place
below. -/
theorem interpolation_value_alphaK_example :
    Double.finite (5764607523034235 / 2 ^ 59) * Double.finite (7656119366529843 / 2 ^ 53)
        + (Double.finite 1 - Double.finite (5764607523034235 / 2 ^ 59)) * Double.finite 1
      = Double.finite (140526382122795 / 2 ^ 47) := by
  have hu : Double.finite (5764607523034235 / 2 ^ 59) * Double.finite (7656119366529843 / 2 ^ 53) = Double.finite (1224979098644775 / 2 ^ 57) :=
    round_eq_of ((5764607523034235 / 2 ^ 59) * (7656119366529843 / 2 ^ 53)) (-7) (-59) 4899916394579100 (1224979098644775 / 2 ^ 57)
      (by rw [abs_of_pos (by norm_num)]; norm_num) (by rw [abs_of_pos (by norm_num)]; norm_num)
      (by decide)
      (roundHalfEven_eq_of_near _ 4899916394579100 (by norm_num) (by norm_num))
      (by norm_num) (by rw [abs_le]; constructor <;> norm_num [maxFinite])
  have hw : Double.finite 1 - Double.finite (5764607523034235 / 2 ^ 59) = Double.finite (4458563631096791 / 2 ^ 52) :=
    round_eq_of (1 - (5764607523034235 / 2 ^ 59)) (-1) (-53) 8917127262193582 (4458563631096791 / 2 ^ 52)
      (by rw [abs_of_pos (by norm_num)]; norm_num) (by rw [abs_of_pos (by norm_num)]; norm_num)
      (by decide)
      (roundHalfEven_eq_of_near _ 8917127262193582 (by norm_num) (by norm_num))
      (by norm_num) (by rw [abs_le]; constructor <;> norm_num [maxFinite])
  have hv : Double.finite (4458563631096791 / 2 ^ 52) * Double.finite 1 = Double.finite (4458563631096791 / 2 ^ 52) :=
    round_eq_of ((4458563631096791 / 2 ^ 52) * 1) (-1) (-53) 8917127262193582 (4458563631096791 / 2 ^ 52)
      (by rw [abs_of_pos (by norm_num)]; norm_num) (by rw [abs_of_pos (by norm_num)]; norm_num)
      (by decide)
      (roundHalfEven_eq_of_near _ 8917127262193582 (by norm_num) (by norm_num))
      (by norm_num) (by rw [abs_le]; constructor <;> norm_num [maxFinite])
  have hs : Double.finite (1224979098644775 / 2 ^ 57) + Double.finite (4458563631096791 / 2 ^ 52) = Double.finite (140526382122795 / 2 ^ 47) :=
    round_eq_of ((1224979098644775 / 2 ^ 57) + (4458563631096791 / 2 ^ 52)) (-1) (-53) 8993688455858880 (140526382122795 / 2 ^ 47)
      (by rw [abs_of_pos (by norm_num)]; norm_num) (by rw [abs_of_pos (by norm_num)]; norm_num)
      (by decide)
      (roundHalfEven_eq_of_near _ 8993688455858880 (by norm_num) (by norm_num))
      (by norm_num) (by rw [abs_le]; constructor <;> norm_num [maxFinite])
  rw [hu, hw, hv, hs]

/-- The code's expression at `F1 = 1` for the pair `(0.01, 0.1)`: the subtraction rounds,
and the result `0.009999999999999995` is below `0.01`. -/
theorem blend_value_one_example :
    Double.finite 1 * (Double.finite (5764607523034235 / 2 ^ 59) - Double.finite (3602879701896397 / 2 ^ 55)) + Double.finite (3602879701896397 / 2 ^ 55)
      = Double.finite (720575940379279 / 2 ^ 56) := by
  have hd : Double.finite (5764607523034235 / 2 ^ 59) - Double.finite (3602879701896397 / 2 ^ 55) = Double.finite (-6485183463413515 / 2 ^ 56) :=
    round_eq_of ((5764607523034235 / 2 ^ 59) - (3602879701896397 / 2 ^ 55)) (-4) (-56) (-6485183463413515) (-6485183463413515 / 2 ^ 56)
      (by rw [abs_of_neg (by norm_num)]; norm_num) (by rw [abs_of_neg (by norm_num)]; norm_num)
      (by decide)
      (roundHalfEven_eq_of_near _ (-6485183463413515) (by norm_num) (by norm_num))
      (by norm_num) (by rw [abs_le]; constructor <;> norm_num [maxFinite])
  have ht : Double.finite 1 * Double.finite (-6485183463413515 / 2 ^ 56) = Double.finite (-6485183463413515 / 2 ^ 56) :=
    round_eq_of (1 * (-6485183463413515 / 2 ^ 56)) (-4) (-56) (-6485183463413515) (-6485183463413515 / 2 ^ 56)
      (by rw [abs_of_neg (by norm_num)]; norm_num) (by rw [abs_of_neg (by norm_num)]; norm_num)
      (by decide)
      (roundHalfEven_eq_of_near _ (-6485183463413515) (by norm_num) (by norm_num))
      (by norm_num) (by rw [abs_le]; constructor <;> norm_num [maxFinite])
  have hr : Double.finite (-6485183463413515 / 2 ^ 56) + Double.finite (3602879701896397 / 2 ^ 55) = Double.finite (720575940379279 / 2 ^ 56) :=
    round_eq_of ((-6485183463413515 / 2 ^ 56) + (3602879701896397 / 2 ^ 55)) (-7) (-59) 5764607523034232 (720575940379279 / 2 ^ 56)
      (by rw [abs_of_pos (by norm_num)]; norm_num) (by rw [abs_of_pos (by norm_num)]; norm_num)
      (by decide)
      (roundHalfEven_eq_of_near _ 5764607523034232 (by norm_num) (by norm_num))
      (by norm_num) (by rw [abs_le]; constructor <;> norm_num [maxFinite])
  rw [hd, ht, hr]

/-- The decimal constant `85 / 100` is held as the double of the example model. -/
theorem exampleModelDouble_alphaK1_nearest :
    Double.round (85 / 100) = exampleModelDouble.alphaK1_.value :=
  round_eq_of (85 / 100) (-1) (-53) 7656119366529843 (7656119366529843 / 2 ^ 53)
      (by rw [abs_of_pos (by norm_num)]; norm_num) (by rw [abs_of_pos (by norm_num)]; norm_num)
      (by decide)
      (roundHalfEven_eq_of_near _ 7656119366529843 (by norm_num) (by norm_num))
      (by norm_num) (by rw [abs_le]; constructor <;> norm_num [maxFinite])

/-- The decimal constant `856 / 1000` is held as the double of the example model. -/
theorem exampleModelDouble_alphaOmega2_nearest :
    Double.round (856 / 1000) = exampleModelDouble.alphaOmega2_.value :=
  round_eq_of (856 / 1000) (-1) (-53) 7710162562058289 (7710162562058289 / 2 ^ 53)
      (by rw [abs_of_pos (by norm_num)]; norm_num) (by rw [abs_of_pos (by norm_num)]; norm_num)
      (by decide)
      (roundHalfEven_eq_of_near _ 7710162562058289 (by norm_num) (by norm_num))
      (by norm_num) (by rw [abs_le]; constructor <;> norm_num [maxFinite])

/-- The decimal constant `5 / 9` is held as the double of the example model. -/
theorem exampleModelDouble_gamma1_nearest :
    Double.round (5 / 9) = exampleModelDouble.gamma1_.value :=
  round_eq_of (5 / 9) (-1) (-53) 5003999585967218 (2501999792983609 / 2 ^ 52)
      (by rw [abs_of_pos (by norm_num)]; norm_num) (by rw [abs_of_pos (by norm_num)]; norm_num)
      (by decide)
      (roundHalfEven_eq_of_near _ 5003999585967218 (by norm_num) (by norm_num))
      (by norm_num) (by rw [abs_le]; constructor <;> norm_num [maxFinite])

/-- The decimal constant `44 / 100` is held as the double of the example model. -/
theorem exampleModelDouble_gamma2_nearest :
    Double.round (44 / 100) = exampleModelDouble.gamma2_.value :=
  round_eq_of (44 / 100) (-2) (-54) 7926335344172073 (7926335344172073 / 2 ^ 54)
      (by rw [abs_of_pos (by norm_num)]; norm_num) (by rw [abs_of_pos (by norm_num)]; norm_num)
      (by decide)
      (roundHalfEven_eq_of_near _ 7926335344172073 (by norm_num) (by norm_num))
      (by norm_num) (by rw [abs_le]; constructor <;> norm_num [maxFinite])

/-- The decimal constant `75 / 1000` is held as the double of the example model. -/
theorem exampleModelDouble_beta1_nearest :
    Double.round (75 / 1000) = exampleModelDouble.beta1_.value :=
  round_eq_of (75 / 1000) (-4) (-56) 5404319552844595 (5404319552844595 / 2 ^ 56)
      (by rw [abs_of_pos (by norm_num)]; norm_num) (by rw [abs_of_pos (by norm_num)]; norm_num)
      (by decide)
      (roundHalfEven_eq_of_near _ 5404319552844595 (by norm_num) (by norm_num))
      (by norm_num) (by rw [abs_le]; constructor <;> norm_num [maxFinite])

/-- The decimal constant `828 / 10000` is held as the double of the example model. -/
theorem exampleModelDouble_beta2_nearest :
    Double.round (828 / 10000) = exampleModelDouble.beta2_.value :=
  round_eq_of (828 / 10000) (-4) (-56) 5966368786340433 (5966368786340433 / 2 ^ 56)
      (by rw [abs_of_pos (by norm_num)]; norm_num) (by rw [abs_of_pos (by norm_num)]; norm_num)
      (by decide)
      (roundHalfEven_eq_of_near _ 5966368786340433 (by norm_num) (by norm_num))
      (by norm_num) (by rw [abs_le]; constructor <;> norm_num [maxFinite])

/-- The double nearest to `1 / 100`. -/
theorem round_one_hundredth :
    Double.round (1 / 100) = Double.finite (5764607523034235 / 2 ^ 59) :=
  round_eq_of (1 / 100) (-7) (-59) 5764607523034235 (5764607523034235 / 2 ^ 59)
      (by rw [abs_of_pos (by norm_num)]; norm_num) (by rw [abs_of_pos (by norm_num)]; norm_num)
      (by decide)
      (roundHalfEven_eq_of_near _ 5764607523034235 (by norm_num) (by norm_num))
      (by norm_num) (by rw [abs_le]; constructor <;> norm_num [maxFinite])

/-- The double nearest to `1 / 10`. -/
theorem round_one_tenth :
    Double.round (1 / 10) = Double.finite (3602879701896397 / 2 ^ 55) :=
  round_eq_of (1 / 10) (-4) (-56) 7205759403792794 (3602879701896397 / 2 ^ 55)
      (by rw [abs_of_pos (by norm_num)]; norm_num) (by rw [abs_of_pos (by norm_num)]; norm_num)
      (by decide)
      (roundHalfEven_eq_of_near _ 7205759403792794 (by norm_num) (by norm_num))
      (by norm_num) (by rw [abs_le]; constructor <;> norm_num [maxFinite])

end Evaluations

/-! ## The blending operator -/

section Blending

open DAkOmegaSSTFIML Double

theorem round_eq_nonFinite_of (q : ℚ) (e k n : ℤ) (h1 : (2 : ℚ) ^ e ≤ |q|)
    (h2 : |q| < (2 : ℚ) ^ (e + 1)) (hk : max e (-1022) - 52 = k)
    (hn : roundHalfEven (q / (2 : ℚ) ^ k) = n) (hgt : maxFinite < |(n : ℚ) * (2 : ℚ) ^ k|) :
    Double.round q = Double.nonFinite := by
  unfold Double.round
  rw [roundNearest_eq_of q e k n h1 h2 hk hn, if_neg (not_le.mpr hgt)]

theorem isFinite_of_exactDiff (x y : Double) (h : ExactDiff x y) : IsFinite (x - y) := by
  cases x with
  | nonFinite => exact absurd h id
  | finite a =>
    cases y with
    | nonFinite => exact absurd h id
    | finite b =>
      have h' : Double.round (a - b) = Double.finite (a - b) := h
      rw [finite_sub, h']
      trivial

theorem isValue_one : IsValue 1 :=
  isValue_of 1 0 (-52) 4503599627370496
      (by rw [abs_of_pos (by norm_num)]; norm_num) (by rw [abs_of_pos (by norm_num)]; norm_num)
      (by decide) (by norm_num) (by rw [abs_le]; constructor <;> norm_num [maxFinite])

theorem isValue_1e16 : IsValue (10 ^ 16) :=
  isValue_of (10 ^ 16) 53 1 5000000000000000
      (by rw [abs_of_pos (by norm_num)]; norm_num) (by rw [abs_of_pos (by norm_num)]; norm_num)
      (by decide) (by norm_num) (by rw [abs_le]; constructor <;> norm_num [maxFinite])

/-- `1 - 1e16` is a tie between `-1e16` and `-9999999999999998`; it rounds to `-1e16`,
so that at `F1 = 1` the pair `(1, 1e16)` blends to `0`. -/
theorem blend_value_one_1e16 :
    Double.finite 1 * (Double.finite 1 - Double.finite (10 ^ 16)) + Double.finite (10 ^ 16)
      = Double.finite 0 := by
  have hd : Double.finite 1 - Double.finite (10 ^ 16) = Double.finite (-10 ^ 16) :=
    round_eq_of (1 - 10 ^ 16) 53 1 (-5000000000000000) (-10 ^ 16)
      (by rw [abs_of_neg (by norm_num)]; norm_num) (by rw [abs_of_neg (by norm_num)]; norm_num)
      (by decide)
      (roundHalfEven_tie_even _ (-5000000000000000) (by norm_num) (by decide))
      (by norm_num) (by rw [abs_le]; constructor <;> norm_num [maxFinite])
  have ht : Double.finite 1 * Double.finite (-10 ^ 16) = Double.finite (-10 ^ 16) :=
    round_eq_of (1 * -10 ^ 16) 53 1 (-5000000000000000) (-10 ^ 16)
      (by rw [abs_of_neg (by norm_num)]; norm_num) (by rw [abs_of_neg (by norm_num)]; norm_num)
      (by decide)
      (roundHalfEven_eq_of_near _ (-5000000000000000) (by norm_num) (by norm_num))
      (by norm_num) (by rw [abs_le]; constructor <;> norm_num [maxFinite])
  rw [hd, ht, finite_add]
  have : (-10 ^ 16 + 10 ^ 16 : ℚ) = 0 := by norm_num
  rw [this, round_zero]

/-- The difference of the largest and the smallest finite double overflows, and the
non-finite value survives the multiplication by `0`. -/
theorem blend_value_zero_overflow :
    Double.finite 0 * (Double.finite maxFinite - Double.finite (-maxFinite))
        + Double.finite (-maxFinite) = Double.nonFinite := by
  have hd : Double.finite maxFinite - Double.finite (-maxFinite) = Double.nonFinite :=
    round_eq_nonFinite_of (maxFinite - -maxFinite) 1024 972 9007199254740991
      (by rw [abs_of_pos (by norm_num [maxFinite])]; norm_num [maxFinite])
      (by rw [abs_of_pos (by norm_num [maxFinite])]; norm_num [maxFinite])
      (by decide)
      (roundHalfEven_eq_of_near _ 9007199254740991 (by norm_num [maxFinite])
        (by norm_num [maxFinite]))
      (by rw [abs_of_pos (by norm_num)]; norm_num [maxFinite])
  rw [hd, mul_nonFinite, nonFinite_add]

/-- C1, as the code has it: in double-precision arithmetic the blend of `(psi1, psi2)` is
`psi2` exactly in a cell where `F1 = 0`, for every pair of finite coefficients whose
difference is finite, and it is `psi1` exactly in a cell where `F1 = 1` whenever the
difference `psi1 - psi2` is formed without rounding; for both overloads. -/
theorem blend_endpoints_double (F1 : volScalarField Double) (G1 : Internal Double)
    (psi1 psi2 : dimensionedScalar Double) (i : Nat) :
    (Valid psi2.value → IsFinite (psi1.value - psi2.value) →
      (F1.internal[i]? = some (Double.finite 0) →
        (blend F1 psi1 psi2).internal[i]? = some psi2.value) ∧
      (G1.field[i]? = some (Double.finite 0) →
        (blendInternal G1 psi1 psi2).field[i]? = some psi2.value)) ∧
    (Valid psi1.value → ExactDiff psi1.value psi2.value →
      (F1.internal[i]? = some (Double.finite 1) →
        (blend F1 psi1 psi2).internal[i]? = some psi1.value) ∧
      (G1.field[i]? = some (Double.finite 1) →
        (blendInternal G1 psi1 psi2).field[i]? = some psi1.value)) := by
  refine ⟨fun hv hd => ⟨fun h => ?_, fun h => ?_⟩, fun hv hd => ⟨fun h => ?_, fun h => ?_⟩⟩
  · rw [blend_cell, h, Option.map_some', blend_value_zero _ _ hv hd]
  · rw [blendInternal_cell, h, Option.map_some', blend_value_zero _ _ hv hd]
  · rw [blend_cell, h, Option.map_some', blend_value_one _ _ hv hd]
  · rw [blendInternal_cell, h, Option.map_some', blend_value_one _ _ hv hd]

theorem exampleModelDouble_alphaK1_valid : Double.Valid exampleModelDouble.alphaK1_.value :=
  isValue_of (7656119366529843 / 2 ^ 53) (-1) (-53) 7656119366529843
      (by rw [abs_of_pos (by norm_num)]; norm_num) (by rw [abs_of_pos (by norm_num)]; norm_num)
      (by decide) (by norm_num) (by rw [abs_le]; constructor <;> norm_num [maxFinite])

theorem exampleModelDouble_alphaK2_valid : Double.Valid exampleModelDouble.alphaK2_.value :=
  isValue_of 1 0 (-52) 4503599627370496
      (by rw [abs_of_pos (by norm_num)]; norm_num) (by rw [abs_of_pos (by norm_num)]; norm_num)
      (by decide) (by norm_num) (by rw [abs_le]; constructor <;> norm_num [maxFinite])

theorem exampleModelDouble_alphaK1_exactDiff :
    Double.ExactDiff exampleModelDouble.alphaK1_.value exampleModelDouble.alphaK2_.value :=
  isValue_of ((7656119366529843 / 2 ^ 53) - 1) (-3) (-55) (-5404319552844596)
      (by rw [abs_of_neg (by norm_num)]; norm_num) (by rw [abs_of_neg (by norm_num)]; norm_num)
      (by decide) (by norm_num) (by rw [abs_le]; constructor <;> norm_num [maxFinite])

theorem exampleModelDouble_alphaOmega1_valid : Double.Valid exampleModelDouble.alphaOmega1_.value :=
  isValue_of (1 / 2) (-1) (-53) 4503599627370496
      (by rw [abs_of_pos (by norm_num)]; norm_num) (by rw [abs_of_pos (by norm_num)]; norm_num)
      (by decide) (by norm_num) (by rw [abs_le]; constructor <;> norm_num [maxFinite])

theorem exampleModelDouble_alphaOmega2_valid : Double.Valid exampleModelDouble.alphaOmega2_.value :=
  isValue_of (7710162562058289 / 2 ^ 53) (-1) (-53) 7710162562058289
      (by rw [abs_of_pos (by norm_num)]; norm_num) (by rw [abs_of_pos (by norm_num)]; norm_num)
      (by decide) (by norm_num) (by rw [abs_le]; constructor <;> norm_num [maxFinite])

theorem exampleModelDouble_alphaOmega1_exactDiff :
    Double.ExactDiff exampleModelDouble.alphaOmega1_.value exampleModelDouble.alphaOmega2_.value :=
  isValue_of ((1 / 2) - (7710162562058289 / 2 ^ 53)) (-2) (-54) (-6413125869375586)
      (by rw [abs_of_neg (by norm_num)]; norm_num) (by rw [abs_of_neg (by norm_num)]; norm_num)
      (by decide) (by norm_num) (by rw [abs_le]; constructor <;> norm_num [maxFinite])

theorem exampleModelDouble_beta1_valid : Double.Valid exampleModelDouble.beta1_.value :=
  isValue_of (5404319552844595 / 2 ^ 56) (-4) (-56) 5404319552844595
      (by rw [abs_of_pos (by norm_num)]; norm_num) (by rw [abs_of_pos (by norm_num)]; norm_num)
      (by decide) (by norm_num) (by rw [abs_le]; constructor <;> norm_num [maxFinite])

theorem exampleModelDouble_beta2_valid : Double.Valid exampleModelDouble.beta2_.value :=
  isValue_of (5966368786340433 / 2 ^ 56) (-4) (-56) 5966368786340433
      (by rw [abs_of_pos (by norm_num)]; norm_num) (by rw [abs_of_pos (by norm_num)]; norm_num)
      (by decide) (by norm_num) (by rw [abs_le]; constructor <;> norm_num [maxFinite])

theorem exampleModelDouble_beta1_exactDiff :
    Double.ExactDiff exampleModelDouble.beta1_.value exampleModelDouble.beta2_.value :=
  isValue_of ((5404319552844595 / 2 ^ 56) - (5966368786340433 / 2 ^ 56)) (-8) (-60) (-8992787735933408)
      (by rw [abs_of_neg (by norm_num)]; norm_num) (by rw [abs_of_neg (by norm_num)]; norm_num)
      (by decide) (by norm_num) (by rw [abs_le]; constructor <;> norm_num [maxFinite])

theorem exampleModelDouble_gamma1_valid : Double.Valid exampleModelDouble.gamma1_.value :=
  isValue_of (2501999792983609 / 2 ^ 52) (-1) (-53) 5003999585967218
      (by rw [abs_of_pos (by norm_num)]; norm_num) (by rw [abs_of_pos (by norm_num)]; norm_num)
      (by decide) (by norm_num) (by rw [abs_le]; constructor <;> norm_num [maxFinite])

theorem exampleModelDouble_gamma2_valid : Double.Valid exampleModelDouble.gamma2_.value :=
  isValue_of (7926335344172073 / 2 ^ 54) (-2) (-54) 7926335344172073
      (by rw [abs_of_pos (by norm_num)]; norm_num) (by rw [abs_of_pos (by norm_num)]; norm_num)
      (by decide) (by norm_num) (by rw [abs_le]; constructor <;> norm_num [maxFinite])

theorem exampleModelDouble_gamma1_exactDiff :
    Double.ExactDiff exampleModelDouble.gamma1_.value exampleModelDouble.gamma2_.value :=
  isValue_of ((2501999792983609 / 2 ^ 52) - (7926335344172073 / 2 ^ 54)) (-4) (-56) 8326655311049452
      (by rw [abs_of_pos (by norm_num)]; norm_num) (by rw [abs_of_pos (by norm_num)]; norm_num)
      (by decide) (by norm_num) (by rw [abs_le]; constructor <;> norm_num [maxFinite])

/-- Witness for C1: the `alphaK` pair of the double-precision example model on a field
with `F1 = 1` in cell 0 and `F1 = 0` in cell 1. -/
theorem blend_endpoints_double_witness :
    ((blend ⟨[Double.finite 1, Double.finite 0], []⟩ exampleModelDouble.alphaK1_
        exampleModelDouble.alphaK2_).internal[1]? = some exampleModelDouble.alphaK2_.value ∧
      (blendInternal ⟨[Double.finite 1, Double.finite 0]⟩ exampleModelDouble.alphaK1_
        exampleModelDouble.alphaK2_).field[1]? = some exampleModelDouble.alphaK2_.value) ∧
    ((blend ⟨[Double.finite 1, Double.finite 0], []⟩ exampleModelDouble.alphaK1_
        exampleModelDouble.alphaK2_).internal[0]? = some exampleModelDouble.alphaK1_.value ∧
      (blendInternal ⟨[Double.finite 1, Double.finite 0]⟩ exampleModelDouble.alphaK1_
        exampleModelDouble.alphaK2_).field[0]? = some exampleModelDouble.alphaK1_.value) :=
  ⟨⟨((blend_endpoints_double ⟨[Double.finite 1, Double.finite 0], []⟩
        ⟨[Double.finite 1, Double.finite 0]⟩ exampleModelDouble.alphaK1_
        exampleModelDouble.alphaK2_ 1).1 exampleModelDouble_alphaK2_valid
        (isFinite_of_exactDiff _ _ exampleModelDouble_alphaK1_exactDiff)).1 rfl,
     ((blend_endpoints_double ⟨[Double.finite 1, Double.finite 0], []⟩
        ⟨[Double.finite 1, Double.finite 0]⟩ exampleModelDouble.alphaK1_
        exampleModelDouble.alphaK2_ 1).1 exampleModelDouble_alphaK2_valid
        (isFinite_of_exactDiff _ _ exampleModelDouble_alphaK1_exactDiff)).2 rfl⟩,
   ⟨((blend_endpoints_double ⟨[Double.finite 1, Double.finite 0], []⟩
        ⟨[Double.finite 1, Double.finite 0]⟩ exampleModelDouble.alphaK1_
        exampleModelDouble.alphaK2_ 0).2 exampleModelDouble_alphaK1_valid
        exampleModelDouble_alphaK1_exactDiff).1 rfl,
     ((blend_endpoints_double ⟨[Double.finite 1, Double.finite 0], []⟩
        ⟨[Double.finite 1, Double.finite 0]⟩ exampleModelDouble.alphaK1_
        exampleModelDouble.alphaK2_ 0).2 exampleModelDouble_alphaK1_valid
        exampleModelDouble_alphaK1_exactDiff).2 rfl⟩⟩

/-- Counterexample to C1 as stated: in a cell with `F1 = 1` the pair `(1, 1e16)` blends to
`0`, not to `psi1 = 1`, in both overloads; and in a cell with `F1 = 0` the pair of the
largest and the smallest finite double blends to a non-finite value, not to `psi2`. -/
theorem blend_endpoints_rounding :
    Valid (Double.finite 1) ∧ Valid (Double.finite (10 ^ 16)) ∧
    (blend ⟨[Double.finite 1], []⟩ ⟨Double.finite 1⟩ ⟨Double.finite (10 ^ 16)⟩).internal[0]?
      = some (Double.finite 0) ∧
    (blendInternal ⟨[Double.finite 1]⟩ ⟨Double.finite 1⟩ ⟨Double.finite (10 ^ 16)⟩).field[0]?
      = some (Double.finite 0) ∧
    (blend ⟨[Double.finite 1], []⟩ ⟨Double.finite 1⟩ ⟨Double.finite (10 ^ 16)⟩).internal[0]?
      ≠ some (Double.finite 1) ∧
    (blend ⟨[Double.finite 0], []⟩ ⟨Double.finite maxFinite⟩
        ⟨Double.finite (-maxFinite)⟩).internal[0]? = some Double.nonFinite := by
  have h1 : (blend ⟨[Double.finite 1], []⟩ ⟨Double.finite 1⟩
      ⟨Double.finite (10 ^ 16)⟩).internal[0]? = some (Double.finite 0) := by
    rw [blend_single, blend_value_one_1e16]
  have h2 : (blendInternal ⟨[Double.finite 1]⟩ ⟨Double.finite 1⟩
      ⟨Double.finite (10 ^ 16)⟩).field[0]? = some (Double.finite 0) := by
    rw [blendInternal_single, blend_value_one_1e16]
  refine ⟨isValue_one, isValue_1e16, h1, h2, ?_, ?_⟩
  · rw [h1]
    intro h
    have h3 : (0 : ℚ) = 1 := Double.finite.inj (Option.some.inj h)
    norm_num at h3
  · rw [blend_single, blend_value_zero_overflow]

/-- C2, as the code has it: in every cell both overloads of `blend` return the same value,
the expression `F1*(coeffNear-coeffFar)+coeffFar` evaluated in the scalar arithmetic of the
build (any `+`, `-`, `*`, the rounded double-precision ones included).  In exact
arithmetic that value is the linear interpolation `F1*coeffNear + (1-F1)*coeffFar`; in
double precision it is within three rounding errors of it, one for each of the
subtraction, the product and the sum, each at most half the spacing of the doubles at the
value rounded. -/
theorem blend_overloads_agree {α : Type} [Add α] [Sub α] [Mul α] {β : Type}
    [LinearOrderedField β] (F1 : volScalarField α) (coeffNear coeffFar : dimensionedScalar α)
    (E1 : volScalarField β) (exactNear exactFar : dimensionedScalar β)
    (D1 : volScalarField Double) (f a b r : ℚ) (i : Nat) :
    ((blend F1 coeffNear coeffFar).internal[i]?
        = (F1.internal[i]?).map
            (fun f => f * (coeffNear.value - coeffFar.value) + coeffFar.value) ∧
      (blendInternal ⟨F1.internal⟩ coeffNear coeffFar).field[i]?
        = (F1.internal[i]?).map
            (fun f => f * (coeffNear.value - coeffFar.value) + coeffFar.value)) ∧
    ((blend E1 exactNear exactFar).internal[i]?
        = (E1.internal[i]?).map
            (fun f => f * exactNear.value + (1 - f) * exactFar.value) ∧
      (blendInternal ⟨E1.internal⟩ exactNear exactFar).field[i]?
        = (E1.internal[i]?).map
            (fun f => f * exactNear.value + (1 - f) * exactFar.value)) ∧
    (D1.internal[i]? = some (Double.finite f) →
      (blend D1 ⟨Double.finite a⟩ ⟨Double.finite b⟩).internal[i]? = some (Double.finite r) →
      |r - (f * a + (1 - f) * b)|
        ≤ |f| * (ulp (a - b) / 2) + ulp (f * roundNearest (a - b)) / 2
          + ulp (roundNearest (f * roundNearest (a - b)) + b) / 2) := by
  have key : (fun f : β => f * (exactNear.value - exactFar.value) + exactFar.value)
      = fun f => f * exactNear.value + (1 - f) * exactFar.value := by
    funext f
    ring
  refine ⟨⟨blend_cell F1 _ _ i, blendInternal_cell ⟨F1.internal⟩ _ _ i⟩, ⟨?_, ?_⟩, ?_⟩
  · rw [← key]; exact blend_cell E1 _ _ i
  · rw [← key]; exact blendInternal_cell ⟨E1.internal⟩ _ _ i
  · intro hf hr
    rw [blend_cell, hf, Option.map_some'] at hr
    exact blend_value_error f a b r (Option.some.inj hr)

/-- Witness for C2: the pair `(0.85, 1)` in a cell with `F1 = 0.01`, where the
double-precision blend is `0.9985`. -/
theorem blend_overloads_agree_witness :
    |((8993688455858881 / 2 ^ 53) : ℚ) - ((5764607523034235 / 2 ^ 59) * (7656119366529843 / 2 ^ 53) + (1 - (5764607523034235 / 2 ^ 59)) * 1)|
      ≤ |((5764607523034235 / 2 ^ 59) : ℚ)| * (ulp ((7656119366529843 / 2 ^ 53) - 1) / 2)
        + ulp ((5764607523034235 / 2 ^ 59) * roundNearest ((7656119366529843 / 2 ^ 53) - 1)) / 2
        + ulp (roundNearest ((5764607523034235 / 2 ^ 59) * roundNearest ((7656119366529843 / 2 ^ 53) - 1)) + 1) / 2 :=
  (blend_overloads_agree (⟨[], []⟩ : volScalarField ℚ) ⟨0⟩ ⟨0⟩ (⟨[], []⟩ : volScalarField ℚ)
    ⟨0⟩ ⟨0⟩ ⟨[Double.finite (5764607523034235 / 2 ^ 59)], []⟩ (5764607523034235 / 2 ^ 59) (7656119366529843 / 2 ^ 53) 1 (8993688455858881 / 2 ^ 53) 0).2.2 rfl
    ((blend_single _ _ _).trans (congrArg some blend_value_alphaK_example))

/-- Counterexample to C2 as stated: in double precision, in a cell with `F1 = 0.01` and the
pair `(0.85, 1)`, both overloads return `0.9985` while the linear interpolation
`F1*coeffNear + (1-F1)*coeffFar` is `0.9984999999999999`. -/
theorem blend_differs_from_interpolation :
    (blend ⟨[Double.finite (5764607523034235 / 2 ^ 59)], []⟩ ⟨Double.finite (7656119366529843 / 2 ^ 53)⟩
        ⟨Double.finite 1⟩).internal[0]? = some (Double.finite (8993688455858881 / 2 ^ 53)) ∧
    (blendInternal ⟨[Double.finite (5764607523034235 / 2 ^ 59)]⟩ ⟨Double.finite (7656119366529843 / 2 ^ 53)⟩
        ⟨Double.finite 1⟩).field[0]? = some (Double.finite (8993688455858881 / 2 ^ 53)) ∧
    Double.finite (5764607523034235 / 2 ^ 59) * Double.finite (7656119366529843 / 2 ^ 53)
        + (Double.finite 1 - Double.finite (5764607523034235 / 2 ^ 59)) * Double.finite 1
      = Double.finite (140526382122795 / 2 ^ 47) ∧
    (blend ⟨[Double.finite (5764607523034235 / 2 ^ 59)], []⟩ ⟨Double.finite (7656119366529843 / 2 ^ 53)⟩
        ⟨Double.finite 1⟩).internal[0]?
      ≠ some (Double.finite (5764607523034235 / 2 ^ 59) * Double.finite (7656119366529843 / 2 ^ 53)
          + (Double.finite 1 - Double.finite (5764607523034235 / 2 ^ 59)) * Double.finite 1) := by
  have h1 : (blend ⟨[Double.finite (5764607523034235 / 2 ^ 59)], []⟩ ⟨Double.finite (7656119366529843 / 2 ^ 53)⟩
      ⟨Double.finite 1⟩).internal[0]? = some (Double.finite (8993688455858881 / 2 ^ 53)) := by
    rw [blend_single, blend_value_alphaK_example]
  have h2 : (blendInternal ⟨[Double.finite (5764607523034235 / 2 ^ 59)]⟩ ⟨Double.finite (7656119366529843 / 2 ^ 53)⟩
      ⟨Double.finite 1⟩).field[0]? = some (Double.finite (8993688455858881 / 2 ^ 53)) := by
    rw [blendInternal_single, blend_value_alphaK_example]
  refine ⟨h1, h2, interpolation_value_alphaK_example, ?_⟩
  rw [h1, interpolation_value_alphaK_example]
  intro h
  have h3 : ((8993688455858881 / 2 ^ 53) : ℚ) = (140526382122795 / 2 ^ 47) := Double.finite.inj (Option.some.inj h)
  norm_num at h3

/-- C4, as the code has it: each coefficient accessor is `blend` applied to its own pair of
constants in (index 1, index 2) order; in double precision it returns, in a cell with
`F1 = 0`, its index-2 constant whenever the two constants are finite with a finite
difference, and in a cell with `F1 = 1` its index-1 constant whenever the difference of
the two constants is formed without rounding. -/
theorem coefficient_accessors_blend_double (m : DAkOmegaSSTFIML Double)
    (F1 : volScalarField Double) (G1 : Internal Double) (i : Nat) :
    (m.alphaK F1 = blend F1 m.alphaK1_ m.alphaK2_ ∧
      m.alphaOmega F1 = blend F1 m.alphaOmega1_ m.alphaOmega2_ ∧
      m.beta G1 = blendInternal G1 m.beta1_ m.beta2_ ∧
      m.gamma G1 = blendInternal G1 m.gamma1_ m.gamma2_) ∧
    (F1.internal[i]? = some (Double.finite 0) →
      (Valid m.alphaK2_.value → IsFinite (m.alphaK1_.value - m.alphaK2_.value) →
        (m.alphaK F1).internal[i]? = some m.alphaK2_.value) ∧
      (Valid m.alphaOmega2_.value → IsFinite (m.alphaOmega1_.value - m.alphaOmega2_.value) →
        (m.alphaOmega F1).internal[i]? = some m.alphaOmega2_.value)) ∧
    (G1.field[i]? = some (Double.finite 0) →
      (Valid m.beta2_.value → IsFinite (m.beta1_.value - m.beta2_.value) →
        (m.beta G1).field[i]? = some m.beta2_.value) ∧
      (Valid m.gamma2_.value → IsFinite (m.gamma1_.value - m.gamma2_.value) →
        (m.gamma G1).field[i]? = some m.gamma2_.value)) ∧
    (F1.internal[i]? = some (Double.finite 1) →
      (Valid m.alphaK1_.value → ExactDiff m.alphaK1_.value m.alphaK2_.value →
        (m.alphaK F1).internal[i]? = some m.alphaK1_.value) ∧
      (Valid m.alphaOmega1_.value → ExactDiff m.alphaOmega1_.value m.alphaOmega2_.value →
        (m.alphaOmega F1).internal[i]? = some m.alphaOmega1_.value)) ∧
    (G1.field[i]? = some (Double.finite 1) →
      (Valid m.beta1_.value → ExactDiff m.beta1_.value m.beta2_.value →
        (m.beta G1).field[i]? = some m.beta1_.value) ∧
      (Valid m.gamma1_.value → ExactDiff m.gamma1_.value m.gamma2_.value →
        (m.gamma G1).field[i]? = some m.gamma1_.value)) := by
  have hv0 : ∀ p1 p2 : dimensionedScalar Double, F1.internal[i]? = some (Double.finite 0) →
      Valid p2.value → IsFinite (p1.value - p2.value) →
      (blend F1 p1 p2).internal[i]? = some p2.value := by
    intro p1 p2 h hv hd
    rw [blend_cell, h, Option.map_some', blend_value_zero _ _ hv hd]
  have hi0 : ∀ p1 p2 : dimensionedScalar Double, G1.field[i]? = some (Double.finite 0) →
      Valid p2.value → IsFinite (p1.value - p2.value) →
      (blendInternal G1 p1 p2).field[i]? = some p2.value := by
    intro p1 p2 h hv hd
    rw [blendInternal_cell, h, Option.map_some', blend_value_zero _ _ hv hd]
  have hv1 : ∀ p1 p2 : dimensionedScalar Double, F1.internal[i]? = some (Double.finite 1) →
      Valid p1.value → ExactDiff p1.value p2.value →
      (blend F1 p1 p2).internal[i]? = some p1.value := by
    intro p1 p2 h hv hd
    rw [blend_cell, h, Option.map_some', blend_value_one _ _ hv hd]
  have hi1 : ∀ p1 p2 : dimensionedScalar Double, G1.field[i]? = some (Double.finite 1) →
      Valid p1.value → ExactDiff p1.value p2.value →
      (blendInternal G1 p1 p2).field[i]? = some p1.value := by
    intro p1 p2 h hv hd
    rw [blendInternal_cell, h, Option.map_some', blend_value_one _ _ hv hd]
  exact ⟨⟨rfl, rfl, rfl, rfl⟩,
    fun h => ⟨hv0 _ _ h, hv0 _ _ h⟩, fun h => ⟨hi0 _ _ h, hi0 _ _ h⟩,
    fun h => ⟨hv1 _ _ h, hv1 _ _ h⟩, fun h => ⟨hi1 _ _ h, hi1 _ _ h⟩⟩

/-- Witness for C4: the double-precision example model, whose four pairs of constants
all have an exactly representable difference, on a field with `F1 = 1` in cell 0 and
`F1 = 0` in cell 1. -/
theorem coefficient_accessors_blend_double_witness :
    ((exampleModelDouble.alphaK ⟨[Double.finite 1, Double.finite 0], []⟩).internal[1]?
        = some exampleModelDouble.alphaK2_.value ∧
      (exampleModelDouble.alphaOmega ⟨[Double.finite 1, Double.finite 0], []⟩).internal[1]?
        = some exampleModelDouble.alphaOmega2_.value) ∧
    ((exampleModelDouble.beta ⟨[Double.finite 1, Double.finite 0]⟩).field[1]?
        = some exampleModelDouble.beta2_.value ∧
      (exampleModelDouble.gamma ⟨[Double.finite 1, Double.finite 0]⟩).field[1]?
        = some exampleModelDouble.gamma2_.value) ∧
    ((exampleModelDouble.alphaK ⟨[Double.finite 1, Double.finite 0], []⟩).internal[0]?
        = some exampleModelDouble.alphaK1_.value ∧
      (exampleModelDouble.alphaOmega ⟨[Double.finite 1, Double.finite 0], []⟩).internal[0]?
        = some exampleModelDouble.alphaOmega1_.value) ∧
    ((exampleModelDouble.beta ⟨[Double.finite 1, Double.finite 0]⟩).field[0]?
        = some exampleModelDouble.beta1_.value ∧
      (exampleModelDouble.gamma ⟨[Double.finite 1, Double.finite 0]⟩).field[0]?
        = some exampleModelDouble.gamma1_.value) :=
  ⟨⟨((coefficient_accessors_blend_double exampleModelDouble
        ⟨[Double.finite 1, Double.finite 0], []⟩ ⟨[Double.finite 1, Double.finite 0]⟩
        1).2.1 rfl).1 exampleModelDouble_alphaK2_valid
        (isFinite_of_exactDiff _ _ exampleModelDouble_alphaK1_exactDiff),
     ((coefficient_accessors_blend_double exampleModelDouble
        ⟨[Double.finite 1, Double.finite 0], []⟩ ⟨[Double.finite 1, Double.finite 0]⟩
        1).2.1 rfl).2 exampleModelDouble_alphaOmega2_valid
        (isFinite_of_exactDiff _ _ exampleModelDouble_alphaOmega1_exactDiff)⟩,
   ⟨((coefficient_accessors_blend_double exampleModelDouble
        ⟨[Double.finite 1, Double.finite 0], []⟩ ⟨[Double.finite 1, Double.finite 0]⟩
        1).2.2.1 rfl).1 exampleModelDouble_beta2_valid
        (isFinite_of_exactDiff _ _ exampleModelDouble_beta1_exactDiff),
     ((coefficient_accessors_blend_double exampleModelDouble
        ⟨[Double.finite 1, Double.finite 0], []⟩ ⟨[Double.finite 1, Double.finite 0]⟩
        1).2.2.1 rfl).2 exampleModelDouble_gamma2_valid
        (isFinite_of_exactDiff _ _ exampleModelDouble_gamma1_exactDiff)⟩,
   ⟨((coefficient_accessors_blend_double exampleModelDouble
        ⟨[Double.finite 1, Double.finite 0], []⟩ ⟨[Double.finite 1, Double.finite 0]⟩
        0).2.2.2.1 rfl).1 exampleModelDouble_alphaK1_valid
        exampleModelDouble_alphaK1_exactDiff,
     ((coefficient_accessors_blend_double exampleModelDouble
        ⟨[Double.finite 1, Double.finite 0], []⟩ ⟨[Double.finite 1, Double.finite 0]⟩
        0).2.2.2.1 rfl).2 exampleModelDouble_alphaOmega1_valid
        exampleModelDouble_alphaOmega1_exactDiff⟩,
   ⟨((coefficient_accessors_blend_double exampleModelDouble
        ⟨[Double.finite 1, Double.finite 0], []⟩ ⟨[Double.finite 1, Double.finite 0]⟩
        0).2.2.2.2 rfl).1 exampleModelDouble_beta1_valid
        exampleModelDouble_beta1_exactDiff,
     ((coefficient_accessors_blend_double exampleModelDouble
        ⟨[Double.finite 1, Double.finite 0], []⟩ ⟨[Double.finite 1, Double.finite 0]⟩
        0).2.2.2.2 rfl).2 exampleModelDouble_gamma1_valid
        exampleModelDouble_gamma1_exactDiff⟩⟩

/-- Counterexample to C4 as stated: with `beta1 = 1` and `beta2 = 1e16`, in a cell with
`F1 = 1`, `beta` returns `0`, not its index-1 constant. -/
theorem beta_endpoint_rounding :
    ((({ exampleModelDouble with
          beta1_ := ⟨Double.finite 1⟩, beta2_ := ⟨Double.finite (10 ^ 16)⟩ } :
        DAkOmegaSSTFIML Double).beta ⟨[Double.finite 1]⟩).field[0]?
      = some (Double.finite 0)) ∧
    ((({ exampleModelDouble with
          beta1_ := ⟨Double.finite 1⟩, beta2_ := ⟨Double.finite (10 ^ 16)⟩ } :
        DAkOmegaSSTFIML Double).beta ⟨[Double.finite 1]⟩).field[0]?
      ≠ some (Double.finite 1)) := by
  have h : (({ exampleModelDouble with
        beta1_ := ⟨Double.finite 1⟩, beta2_ := ⟨Double.finite (10 ^ 16)⟩ } :
      DAkOmegaSSTFIML Double).beta ⟨[Double.finite 1]⟩).field[0]?
      = some (Double.finite 0) :=
    (blendInternal_single _ _ _).trans (congrArg some blend_value_one_1e16)
  refine ⟨h, ?_⟩
  rw [h]
  intro h'
  have h3 : (0 : ℚ) = 1 := Double.finite.inj (Option.some.inj h')
  norm_num at h3

/-- C9, as the code has it: in a cell with `0 ≤ F1 ≤ 1` the double-precision blend of
`(psi1, psi2)` is finite and lies between the values `e1` and `e0` that the blending
expression takes at `F1 = 1` and at `F1 = 0`, provided those two are finite; they are
`psi1` and `psi2` themselves when the difference `psi1 - psi2` is formed without
rounding, and then the blend lies between `min psi1 psi2` and `max psi1 psi2`.  The same
holds for `alphaK`, `alphaOmega`, `beta` and `gamma` with their own pairs. -/
theorem blend_within_endpoint_range (m : DAkOmegaSSTFIML Double) (F1 : volScalarField Double)
    (G1 : Internal Double) (psi1 psi2 : dimensionedScalar Double) (i : Nat) (f e1 e0 : ℚ)
    (h0 : 0 ≤ f) (h1 : f ≤ 1)
    (hE1 : Double.finite 1 * (psi1.value - psi2.value) + psi2.value = Double.finite e1)
    (hE0 : Double.finite 0 * (psi1.value - psi2.value) + psi2.value = Double.finite e0) :
    (F1.internal[i]? = some (Double.finite f) →
      (∃ r, (blend F1 psi1 psi2).internal[i]? = some (Double.finite r) ∧
        min e1 e0 ≤ r ∧ r ≤ max e1 e0) ∧
      (psi1 = m.alphaK1_ → psi2 = m.alphaK2_ →
        ∃ r, (m.alphaK F1).internal[i]? = some (Double.finite r) ∧
          min e1 e0 ≤ r ∧ r ≤ max e1 e0) ∧
      (psi1 = m.alphaOmega1_ → psi2 = m.alphaOmega2_ →
        ∃ r, (m.alphaOmega F1).internal[i]? = some (Double.finite r) ∧
          min e1 e0 ≤ r ∧ r ≤ max e1 e0)) ∧
    (G1.field[i]? = some (Double.finite f) →
      (∃ r, (blendInternal G1 psi1 psi2).field[i]? = some (Double.finite r) ∧
        min e1 e0 ≤ r ∧ r ≤ max e1 e0) ∧
      (psi1 = m.beta1_ → psi2 = m.beta2_ →
        ∃ r, (m.beta G1).field[i]? = some (Double.finite r) ∧
          min e1 e0 ≤ r ∧ r ≤ max e1 e0) ∧
      (psi1 = m.gamma1_ → psi2 = m.gamma2_ →
        ∃ r, (m.gamma G1).field[i]? = some (Double.finite r) ∧
          min e1 e0 ≤ r ∧ r ≤ max e1 e0)) ∧
    (Valid psi1.value → Valid psi2.value → ExactDiff psi1.value psi2.value →
      psi1.value = Double.finite e1 ∧ psi2.value = Double.finite e0) := by
  obtain ⟨r, hr, hlo, hhi⟩ := blend_value_between _ _ f e1 e0 h0 h1 hE1 hE0
  have hv : F1.internal[i]? = some (Double.finite f) →
      ∃ r, (blend F1 psi1 psi2).internal[i]? = some (Double.finite r) ∧
        min e1 e0 ≤ r ∧ r ≤ max e1 e0 := by
    intro h
    exact ⟨r, by rw [blend_cell, h, Option.map_some', hr], hlo, hhi⟩
  have hi : G1.field[i]? = some (Double.finite f) →
      ∃ r, (blendInternal G1 psi1 psi2).field[i]? = some (Double.finite r) ∧
        min e1 e0 ≤ r ∧ r ≤ max e1 e0 := by
    intro h
    exact ⟨r, by rw [blendInternal_cell, h, Option.map_some', hr], hlo, hhi⟩
  refine ⟨fun h => ⟨hv h, ?_, ?_⟩, fun h => ⟨hi h, ?_, ?_⟩, fun hv1 hv2 hd => ⟨?_, ?_⟩⟩
  · rintro rfl rfl
    exact hv h
  · rintro rfl rfl
    exact hv h
  · rintro rfl rfl
    exact hi h
  · rintro rfl rfl
    exact hi h
  · rw [← hE1, blend_value_one _ _ hv1 hd]
  · rw [← hE0, blend_value_zero _ _ hv2 (isFinite_of_exactDiff _ _ hd)]

/-- Witness for C9: the `alphaK` pair of the double-precision example model in a cell
with `F1 = 0.01`; its endpoint values are the two constants themselves. -/
theorem blend_within_endpoint_range_witness :
    (0 : ℚ) ≤ (5764607523034235 / 2 ^ 59) ∧ ((5764607523034235 / 2 ^ 59) : ℚ) ≤ 1 ∧
    (∃ r, (blend ⟨[Double.finite (5764607523034235 / 2 ^ 59)], []⟩ exampleModelDouble.alphaK1_
        exampleModelDouble.alphaK2_).internal[0]? = some (Double.finite r) ∧
      min (7656119366529843 / 2 ^ 53) 1 ≤ r ∧ r ≤ max (7656119366529843 / 2 ^ 53) 1) ∧
    (∃ r, (exampleModelDouble.alphaK ⟨[Double.finite (5764607523034235 / 2 ^ 59)], []⟩).internal[0]?
        = some (Double.finite r) ∧
      min (7656119366529843 / 2 ^ 53) 1 ≤ r ∧ r ≤ max (7656119366529843 / 2 ^ 53) 1) ∧
    (∃ r, (blendInternal ⟨[Double.finite (5764607523034235 / 2 ^ 59)]⟩ exampleModelDouble.alphaK1_
        exampleModelDouble.alphaK2_).field[0]? = some (Double.finite r) ∧
      min (7656119366529843 / 2 ^ 53) 1 ≤ r ∧ r ≤ max (7656119366529843 / 2 ^ 53) 1) :=
  ⟨by norm_num, by norm_num,
   ((blend_within_endpoint_range exampleModelDouble ⟨[Double.finite (5764607523034235 / 2 ^ 59)], []⟩
      ⟨[Double.finite (5764607523034235 / 2 ^ 59)]⟩ exampleModelDouble.alphaK1_ exampleModelDouble.alphaK2_ 0
      (5764607523034235 / 2 ^ 59) (7656119366529843 / 2 ^ 53) 1 (by norm_num) (by norm_num)
      (blend_value_one _ _ exampleModelDouble_alphaK1_valid
        exampleModelDouble_alphaK1_exactDiff)
      (blend_value_zero _ _ exampleModelDouble_alphaK2_valid
        (isFinite_of_exactDiff _ _ exampleModelDouble_alphaK1_exactDiff))).1 rfl).1,
   ((blend_within_endpoint_range exampleModelDouble ⟨[Double.finite (5764607523034235 / 2 ^ 59)], []⟩
      ⟨[Double.finite (5764607523034235 / 2 ^ 59)]⟩ exampleModelDouble.alphaK1_ exampleModelDouble.alphaK2_ 0
      (5764607523034235 / 2 ^ 59) (7656119366529843 / 2 ^ 53) 1 (by norm_num) (by norm_num)
      (blend_value_one _ _ exampleModelDouble_alphaK1_valid
        exampleModelDouble_alphaK1_exactDiff)
      (blend_value_zero _ _ exampleModelDouble_alphaK2_valid
        (isFinite_of_exactDiff _ _ exampleModelDouble_alphaK1_exactDiff))).1 rfl).2.1 rfl rfl,
   ((blend_within_endpoint_range exampleModelDouble ⟨[Double.finite (5764607523034235 / 2 ^ 59)], []⟩
      ⟨[Double.finite (5764607523034235 / 2 ^ 59)]⟩ exampleModelDouble.alphaK1_ exampleModelDouble.alphaK2_ 0
      (5764607523034235 / 2 ^ 59) (7656119366529843 / 2 ^ 53) 1 (by norm_num) (by norm_num)
      (blend_value_one _ _ exampleModelDouble_alphaK1_valid
        exampleModelDouble_alphaK1_exactDiff)
      (blend_value_zero _ _ exampleModelDouble_alphaK2_valid
        (isFinite_of_exactDiff _ _ exampleModelDouble_alphaK1_exactDiff))).2.1 rfl).1⟩

/-- Counterexample to C9 as stated: in a cell with `F1 = 1` the double-precision blend of
the pair `(0.01, 0.1)` is `0.009999999999999995`, below `min psi1 psi2 = 0.01`. -/
theorem blend_leaves_coefficient_range :
    Valid (Double.finite (5764607523034235 / 2 ^ 59)) ∧ Valid (Double.finite (3602879701896397 / 2 ^ 55)) ∧
    (0 : ℚ) ≤ 1 ∧ (1 : ℚ) ≤ 1 ∧
    (blend ⟨[Double.finite 1], []⟩ ⟨Double.finite (5764607523034235 / 2 ^ 59)⟩
        ⟨Double.finite (3602879701896397 / 2 ^ 55)⟩).internal[0]? = some (Double.finite (720575940379279 / 2 ^ 56)) ∧
    (blendInternal ⟨[Double.finite 1]⟩ ⟨Double.finite (5764607523034235 / 2 ^ 59)⟩
        ⟨Double.finite (3602879701896397 / 2 ^ 55)⟩).field[0]? = some (Double.finite (720575940379279 / 2 ^ 56)) ∧
    ((720575940379279 / 2 ^ 56) : ℚ) < min (5764607523034235 / 2 ^ 59) (3602879701896397 / 2 ^ 55) := by
  refine ⟨isValue_one_hundredth, isValue_one_tenth, by norm_num, by norm_num, ?_, ?_, ?_⟩
  · rw [blend_single, blend_value_one_example]
  · rw [blendInternal_single, blend_value_one_example]
  · rw [lt_min_iff]
    constructor <;> norm_num

end Blending

/-! ## Effective diffusivities -/

section Diffusivity

variable {α : Type} [LinearOrderedField α]

open DAkOmegaSSTFIML

/-- C3: in every cell the effective diffusivity is the molecular viscosity plus the
blended turbulent diffusivity: `DkEff = nu + (F1*(alphaK1-alphaK2)+alphaK2)*nut` and
`DomegaEff = nu + (F1*(alphaOmega1-alphaOmega2)+alphaOmega2)*nut`. -/
theorem effective_diffusivity_formula (m : DAkOmegaSSTFIML α) (F1 : volScalarField α)
    (i : Nat) (f t n : α) (hf : F1.internal[i]? = some f)
    (ht : m.nut_.internal[i]? = some t) (hn : m.nu.internal[i]? = some n) :
    (m.DkEff F1).internal[i]?
        = some (n + (f * (m.alphaK1_.value - m.alphaK2_.value) + m.alphaK2_.value) * t) ∧
    (m.DomegaEff F1).internal[i]?
        = some (n + (f * (m.alphaOmega1_.value - m.alphaOmega2_.value)
            + m.alphaOmega2_.value) * t) := by
  constructor
  · rw [DkEff_cell m F1 i f t n hf ht hn, add_comm]
  · rw [DomegaEff_cell m F1 i f t n hf ht hn, add_comm]

/-- Witness for C3: the example model in cell 1 (`nut = 3`, `nu = 1/10`) with
`F1 = 1/2`. -/
theorem effective_diffusivity_formula_witness :
    (exampleModel.DkEff ⟨[1, 1 / 2], []⟩).internal[1]?
        = some (1 / 10 + (1 / 2 * (85 / 100 - 1) + 1) * 3) ∧
    (exampleModel.DomegaEff ⟨[1, 1 / 2], []⟩).internal[1]?
        = some (1 / 10 + (1 / 2 * (1 / 2 - 856 / 1000) + 856 / 1000) * 3) :=
  effective_diffusivity_formula exampleModel ⟨[1, 1 / 2], []⟩ 1 (1 / 2) 3 (1 / 10) rfl rfl rfl

/-- C10: in a cell with `0 ≤ F1 ≤ 1` and `nut ≥ 0`, and with non-negative constants
`alphaK1`, `alphaK2`, `alphaOmega1`, `alphaOmega2`, both effective diffusivities are at
least the molecular viscosity, hence strictly positive when `nu > 0`. -/
theorem effective_diffusivity_ge_nu (m : DAkOmegaSSTFIML α) (F1 : volScalarField α)
    (i : Nat) (f t n : α) (hf : F1.internal[i]? = some f)
    (ht : m.nut_.internal[i]? = some t) (hn : m.nu.internal[i]? = some n)
    (h0 : 0 ≤ f) (h1 : f ≤ 1) (hnut : 0 ≤ t)
    (hK1 : 0 ≤ m.alphaK1_.value) (hK2 : 0 ≤ m.alphaK2_.value)
    (hO1 : 0 ≤ m.alphaOmega1_.value) (hO2 : 0 ≤ m.alphaOmega2_.value) :
    (∃ d, (m.DkEff F1).internal[i]? = some d ∧ n ≤ d ∧ (0 < n → 0 < d)) ∧
    (∃ d, (m.DomegaEff F1).internal[i]? = some d ∧ n ≤ d ∧ (0 < n → 0 < d)) := by
  have hk := mul_nonneg (blend_value_nonneg f _ _ h0 h1 hK1 hK2) hnut
  have ho := mul_nonneg (blend_value_nonneg f _ _ h0 h1 hO1 hO2) hnut
  refine ⟨⟨_, DkEff_cell m F1 i f t n hf ht hn, ?_, fun hp => ?_⟩,
    ⟨_, DomegaEff_cell m F1 i f t n hf ht hn, ?_, fun hp => ?_⟩⟩
  · linarith
  · linarith
  · linarith
  · linarith

/-- Witness for C10: the example model in cell 1 with `F1 = 1/2`. -/
theorem effective_diffusivity_ge_nu_witness :
    (∃ d, (exampleModel.DkEff ⟨[1, 1 / 2], []⟩).internal[1]? = some d ∧
      1 / 10 ≤ d ∧ ((0 : ℚ) < 1 / 10 → 0 < d)) ∧
    (∃ d, (exampleModel.DomegaEff ⟨[1, 1 / 2], []⟩).internal[1]? = some d ∧
      1 / 10 ≤ d ∧ ((0 : ℚ) < 1 / 10 → 0 < d)) :=
  effective_diffusivity_ge_nu exampleModel ⟨[1, 1 / 2], []⟩ 1 (1 / 2) 3 (1 / 10) rfl rfl rfl
    (by norm_num) (by norm_num) (by norm_num)
    (by norm_num [exampleModel]) (by norm_num [exampleModel])
    (by norm_num [exampleModel]) (by norm_num [exampleModel])

end Diffusivity

/-! ## Production limiter -/

section Production

variable {α : Type} [LinearOrderedField α]

open DAkOmegaSSTFIML

/-- C5: for every strain rate `S` (with `S2 = S^2`), every unlimited value `GbyNu0` and
every `F2`, the value `GbyNu(GbyNu0, F2, S2)` returns in a cell exists and does not
exceed `10 * betaStar * S^2`. -/
theorem GbyNu_le_cap (m : DAkOmegaSSTFIML α) (GbyNu0 F2 S : Internal α) (i : Nat)
    (g0 s : α) (hg : GbyNu0.field[i]? = some g0) (hs : S.field[i]? = some s) :
    ∃ g, (m.GbyNu GbyNu0 F2 ⟨S.field.map (fun x => x ^ 2)⟩).field[i]? = some g ∧
      g ≤ 10 * m.betaStar_.value * s ^ 2 := by
  refine ⟨min g0 (10 * m.betaStar_.value * s ^ 2), ?_, min_le_right _ _⟩
  show (List.zipWith _ GbyNu0.field (S.field.map _))[i]? = _
  simp [List.getElem?_zipWith, hg, hs]

/-- Witness for C5: the example model (`betaStar = 9/100`) in a cell with `S = 2`,
so that the cap is `18/5`, and an unlimited value of 100. -/
theorem GbyNu_le_cap_witness :
    ∃ g, (exampleModel.GbyNu ⟨[100]⟩ ⟨[1]⟩ ⟨[(2 : ℚ)].map (fun x => x ^ 2)⟩).field[0]?
        = some g ∧ g ≤ 10 * exampleModel.betaStar_.value * 2 ^ 2 :=
  GbyNu_le_cap exampleModel ⟨[100]⟩ ⟨[1]⟩ ⟨[2]⟩ 0 100 2 rfl rfl

end Production

/-! ## Near-wall cache -/

section NearWall

variable {α : Type} [LinearOrderedField α]

open DAkOmegaSSTFIML

/-- C7: `saveOmegaNearWall()` followed at once by `setOmegaNearWall()` leaves the omega
field unchanged, and with it the omega value of every boundary-adjacent cell. -/
theorem save_then_set_omega_unchanged (m : DAkOmegaSSTFIML α) :
    (setOmegaNearWall (saveOmegaNearWall m)).omega_ = m.omega_ ∧
    m.mesh_.nearWallCells.map
        (fun c => (setOmegaNearWall (saveOmegaNearWall m)).omega_.internal[c]?)
      = m.mesh_.nearWallCells.map (fun c => m.omega_.internal[c]?) := by
  have h : (setOmegaNearWall (saveOmegaNearWall m)).omega_ = m.omega_ := by
    show ({ m.omega_ with
      internal := restoreNearWall m.mesh_.nearWallCells
        (m.mesh_.nearWallCells.map (fun c => m.omega_.internal.getD c 0))
        m.omega_.internal } : volScalarField α) = m.omega_
    rw [restoreNearWall_saved]
  exact ⟨h, by rw [h]⟩

/-- The cache does its work on the example model: omega is saved, then overwritten in
both cells, and `setOmegaNearWall` brings back the value of the near-wall cell 1 only. -/
theorem setOmegaNearWall_restores_example :
    (saveOmegaNearWall exampleModel).omegaNearWall_ = [20] ∧
    (setOmegaNearWall
        { saveOmegaNearWall exampleModel with omega_ := ⟨[11, 99], []⟩ }).omega_.internal
      = [11, 20] :=
  ⟨rfl, rfl⟩

end NearWall

/-! ## Feature and output buffers -/

section Buffers

/-- C8, as the code has it: on a mesh of `N` cells whose product `9*N` fits a `w`-bit
`label`, the feature buffer (and its forward-mode twin) has exactly `9*N` entries and the
output buffer (and its twin) exactly `N`; so for a cell `i < N` and a feature `j < 9` the
position `9*i + j` is inside the feature buffer and `i` is inside the output buffer. -/
theorem buffer_extents (w : Nat) (mesh_ : fvMesh) (hw : 0 < w)
    (hfit : 9 * (mesh_.nCells : Int) < 2 ^ (w - 1)) :
    inputs_ w mesh_ = some (9 * mesh_.nCells) ∧
    outputs_ w mesh_ = some mesh_.nCells ∧
    inputsDouble_ w mesh_ = some (9 * mesh_.nCells) ∧
    outputsDouble_ w mesh_ = some mesh_.nCells ∧
    ∀ i j, i < mesh_.nCells → j < 9 →
      (∃ len, inputs_ w mesh_ = some len ∧ 9 * i + j < len) ∧
      (∃ len, outputs_ w mesh_ = some len ∧ i < len) := by
  have hin : newArray (labelMul w mesh_.nCells 9) = some (9 * mesh_.nCells) := by
    unfold labelMul
    rw [labelWrap_of_fits w _ hw (by positivity) (by omega)]
    unfold newArray
    rw [if_pos (by positivity)]
    congr 1
    omega
  have hout : newArray (labelWrap w mesh_.nCells) = some mesh_.nCells := by
    rw [labelWrap_of_fits w _ hw (by positivity) (by omega)]
    unfold newArray
    rw [if_pos (by positivity)]
    rfl
  refine ⟨hin, hout, hin, hout, fun i j hi hj => ⟨⟨_, hin, by omega⟩, ⟨_, hout, hi⟩⟩⟩

/-- Witness for C8: a mesh of 1000 cells with 32-bit labels. -/
theorem buffer_extents_witness :
    inputs_ 32 ⟨1000, []⟩ = some 9000 ∧
    outputs_ 32 ⟨1000, []⟩ = some 1000 ∧
    inputsDouble_ 32 ⟨1000, []⟩ = some 9000 ∧
    outputsDouble_ 32 ⟨1000, []⟩ = some 1000 ∧
    ∀ i j, i < 1000 → j < 9 →
      (∃ len, inputs_ 32 ⟨1000, []⟩ = some len ∧ 9 * i + j < len) ∧
      (∃ len, outputs_ 32 ⟨1000, []⟩ = some len ∧ i < len) :=
  buffer_extents 32 ⟨1000, []⟩ (by decide) (by norm_num)

/-- Counterexample to C8 as stated: with 32-bit labels and `N = 238609295` cells the
product `N * 9 = 2147483655` is not a `label` value; the extent handed to `new` is
negative, no feature buffer of `9*N` entries is obtained. -/
theorem buffer_extents_overflow :
    labelMul 32 238609295 9 = -2147483641 ∧
    inputs_ 32 ⟨238609295, []⟩ = none ∧
    inputs_ 32 ⟨238609295, []⟩ ≠ some (9 * 238609295) := by
  have h : labelMul 32 238609295 9 = -2147483641 := by
    norm_num [labelMul, labelWrap]
  refine ⟨h, ?_, ?_⟩
  · show newArray (labelMul 32 238609295 9) = none
    rw [h]; rfl
  · show newArray (labelMul 32 238609295 9) ≠ _
    rw [h]; exact fun h => nomatch h

end Buffers

end Foam
